import Mathlib

/-!
Shallow embedding, in Lean 4, of the core of the `ai_daily` digest pipeline
(repository `andy-ahmedov/ai_daily`), together with theorems settling the
frozen claims about it.

Conventions of the embedding:
* Python `str` is Lean `String` (a list of unicode code points, matching
  Python's per-character semantics for indexing, `len`, slicing).
* Python `datetime` values are modelled as `Int` ordinals (only their linear
  order and equality are ever used by the verified code paths); where the
  source stringifies a datetime (`str(posted_at)`) the model takes the
  string as an input.
* Database tables are modelled as Lean lists of row structures; SQL queries
  are translated into the corresponding list filters / sorts.
* `hashlib.sha256(...).hexdigest()` is an external primitive; it is modelled
  as the identity on the payload string (faithful up to SHA-256 collisions,
  and injectivity of SHA-256 is exactly what the code relies on).
* Cosine similarity over pgvector embeddings is an external primitive of the
  database engine; embeddings are modelled as opaque identifiers and the
  similarity function is a parameter of the dedup model.
* Python's `re.IGNORECASE` case folding and the `\w`/`\s` character classes
  are modelled for the ASCII and Cyrillic ranges actually used by the
  source's patterns and data.
-/

set_option linter.unusedVariables false

namespace AIDigest

/-! ## Generic lexicographic key orders (Python tuple comparison) -/

/-- Python tuple `<=` on integer pairs: lexicographic. -/
def lex2 (a b : Int × Int) : Prop :=
  a.1 < b.1 ∨ (a.1 = b.1 ∧ a.2 ≤ b.2)

instance : DecidableRel lex2 := fun a b => by
  unfold lex2; infer_instance

theorem lex2_total : ∀ a b, lex2 a b ∨ lex2 b a := by
  intro a b; unfold lex2; omega

theorem lex2_trans : ∀ a b c, lex2 a b → lex2 b c → lex2 a c := by
  intro a b c; unfold lex2; omega

theorem lex2_refl : ∀ a, lex2 a a := by
  intro a; unfold lex2; omega

/-- Python tuple `<=` on integer 4-tuples: lexicographic. -/
def lex4 (a b : Int × Int × Int × Int) : Prop :=
  a.1 < b.1 ∨ (a.1 = b.1 ∧ (a.2.1 < b.2.1 ∨ (a.2.1 = b.2.1 ∧
    (a.2.2.1 < b.2.2.1 ∨ (a.2.2.1 = b.2.2.1 ∧ a.2.2.2 ≤ b.2.2.2)))))

instance : DecidableRel lex4 := fun a b => by
  unfold lex4; infer_instance

theorem lex4_total : ∀ a b, lex4 a b ∨ lex4 b a := by
  intro a b; unfold lex4; omega

theorem lex4_trans : ∀ a b c, lex4 a b → lex4 b c → lex4 a c := by
  intro a b c; unfold lex4; omega

theorem lex4_refl : ∀ a, lex4 a a := by
  intro a; unfold lex4; omega

theorem length_dropWhile_le_aux {α : Type} (p : α → Bool) :
    ∀ l : List α, (l.dropWhile p).length ≤ l.length := by
  intro l
  induction l with
  | nil => simp
  | cons a t ih =>
    by_cases h : p a = true
    · simp only [List.dropWhile_cons, h, if_true, List.length_cons]
      omega
    · simp [List.dropWhile_cons, h]

/-! ## Python string primitives (`src/aidigest/ingest/normalize.py` helpers) -/

/-- Whitespace recognised by Python `str.strip()` / regex `\s` on the data the
pipeline sees (ASCII whitespace plus NBSP). -/
def isPyWs (c : Char) : Bool :=
  c = ' ' || c = '\t' || c = '\n' || c = '\r' ||
    c.toNat = 0x0B || c.toNat = 0x0C || c.toNat = 0xA0

/-- Python `str.lower()` restricted to the ASCII and Cyrillic letters used by
the source's case-insensitive patterns. -/
def pyLowerChar (c : Char) : Char :=
  if 65 ≤ c.toNat ∧ c.toNat ≤ 90 then Char.ofNat (c.toNat + 32)
  else if 0x410 ≤ c.toNat ∧ c.toNat ≤ 0x42F then Char.ofNat (c.toNat + 0x20)
  else if c.toNat = 0x401 then Char.ofNat 0x451
  else c

/-- Python `str.upper()` restricted to the same letter ranges. -/
def pyUpperChar (c : Char) : Char :=
  if 97 ≤ c.toNat ∧ c.toNat ≤ 122 then Char.ofNat (c.toNat - 32)
  else if 0x430 ≤ c.toNat ∧ c.toNat ≤ 0x44F then Char.ofNat (c.toNat - 0x20)
  else if c.toNat = 0x451 then Char.ofNat 0x401
  else c

/-- Regex `\w` (word character) over the ASCII and Cyrillic ranges the source
patterns exercise. -/
def isWordChar (c : Char) : Bool :=
  c.isAlphanum || c = '_' || (0x400 ≤ c.toNat && c.toNat ≤ 0x4FF)

def lowerL (l : List Char) : List Char := l.map pyLowerChar

/-- Python `str.strip()` on a character list: drop trailing then leading
whitespace. -/
def pyStripL (l : List Char) : List Char :=
  List.dropWhile isPyWs (List.rdropWhile isPyWs l)

/-- Python `str.strip()`. -/
def pyStrip (s : String) : String := String.mk (pyStripL s.data)

/-- Collapse runs of spaces to a single space (used to model the
`[ \t]+ -> " "` substitution after tabs are mapped to spaces). -/
def squeezeSpaces : List Char → List Char
  | [] => []
  | [c] => [c]
  | c1 :: c2 :: rest =>
    if c1 = ' ' ∧ c2 = ' ' then squeezeSpaces (c2 :: rest)
    else c1 :: squeezeSpaces (c2 :: rest)

/-- First pass of newline normalization: `text.replace("\r\n", "\n")`. -/
def stripCrLf : List Char → List Char
  | [] => []
  | '\r' :: '\n' :: rest => '\n' :: stripCrLf rest
  | c :: rest => c :: stripCrLf rest

/-- Model of `text.replace("\r\n", "\n").replace("\r", "\n")`. -/
def normNewlines (l : List Char) : List Char :=
  (stripCrLf l).map (fun c => if c = '\r' then '\n' else c)

/-- Python `text.split(sep)` for a one-character separator. -/
def splitOnChar (sep : Char) : List Char → List (List Char)
  | [] => [[]]
  | c :: rest =>
    let r := splitOnChar sep rest
    if c = sep then [] :: r
    else
      match r with
      | [] => [[c]]
      | h :: t => (c :: h) :: t

/-- Worker for `collapseBlankRuns`: `n` counts the pending run of
consecutive newlines, which is emitted truncated to two. -/
def collapseBlankAux : Nat → List Char → List Char
  | n, [] => List.replicate (min n 2) '\n'
  | n, c :: rest =>
    if c = '\n' then collapseBlankAux (n + 1) rest
    else List.replicate (min n 2) '\n' ++ c :: collapseBlankAux 0 rest

/-- Model of `_EMPTY_LINES_RE.sub("\n\n", joined)`: collapse every run of
three or more newlines down to exactly two. -/
def collapseBlankRuns (l : List Char) : List Char :=
  collapseBlankAux 0 l

/-! ## `normalize.py`: zero-width stripping, tail-stop patterns,
`normalize_text`, `compute_content_hash` -/

/-- `_ZERO_WIDTH_RE`: U+200B..U+200D and U+FEFF. -/
def isZeroWidth (c : Char) : Bool :=
  (0x200B ≤ c.toNat && c.toNat ≤ 0x200D) || c.toNat = 0xFEFF

def startsWithStr (pat : String) (l : List Char) : Bool :=
  pat.data.isPrefixOf l

/-- Anchored match of a literal followed by a regex word boundary `\b`. -/
def startsWithBoundary (pat : String) (l : List Char) : Bool :=
  pat.data.isPrefixOf l &&
    (match l.drop pat.data.length with
     | [] => true
     | c :: _ => !isWordChar c)

/-- Pattern `^(https?://)?t\.me/\S+$`. -/
def isTmeLine (l : List Char) : Bool :=
  let core :=
    if ("https://".data).isPrefixOf l then l.drop 8
    else if ("http://".data).isPrefixOf l then l.drop 7
    else l
  ("t.me/".data).isPrefixOf core &&
    (let rest := core.drop 5
     !rest.isEmpty && rest.all (fun c => !isPyWs c))

/-- Occurrence of a word with `\b` boundaries on both sides, anywhere in the
line (pattern `.*\bdonate\b.*`). -/
def containsWordAt (w : List Char) (prev : Option Char) : List Char → Bool
  | [] => false
  | c :: rest =>
    (((prev.map (fun p => !isWordChar p)).getD true) &&
        w.isPrefixOf (c :: rest) &&
        (match (c :: rest).drop w.length with
         | [] => true
         | d :: _ => !isWordChar d))
      || containsWordAt w (some c) rest

/-- `_is_tail_stop_line`: the `_TAIL_STOP_PATTERNS` list, each matched
case-insensitively and anchored at the start of the line (except the
`donate` pattern, which may occur anywhere). -/
def isTailStopLine (line : List Char) : Bool :=
  let l := lowerL line
  startsWithBoundary "подписывайтесь" l || startsWithBoundary "подписывайся" l ||
    startsWithBoundary "реклама" l ||
    startsWithStr "источник" l ||
    startsWithBoundary "читайте также" l ||
    isTmeLine l ||
    startsWithBoundary "поддержать канал" l || startsWithBoundary "поддержите канал" l ||
    containsWordAt "donate".data none l

/-- One line of the compaction loop body:
`_INLINE_WHITESPACE_RE.sub(" ", raw_line).strip()`. -/
def processLine (l : List Char) : List Char :=
  pyStripL (squeezeSpaces (l.map (fun c => if c = '\t' then ' ' else c)))

/-- Appending one processed line to the (reversed) `compact_lines`
accumulator, skipping consecutive empties. -/
def addCompactLine (acc : List (List Char)) (line : List Char) : List (List Char) :=
  if line.isEmpty then
    match acc with
    | [] :: _ => acc
    | _ => [] :: acc
  else line :: acc

/-- Worker for `popTailStops`: the flag records that a tail-stop line was
just dropped, so directly following empty lines are dropped too before the
next tail-stop check. -/
def popTailAux : Bool → List (List Char) → List (List Char)
  | _, [] => []
  | dropEmpties, l :: rest =>
    if dropEmpties && l.isEmpty then popTailAux true rest
    else if isTailStopLine l then popTailAux true rest
    else l :: rest

/-- The trailing tail-stop loop of `normalize_text`, acting on the reversed
line list: drop one tail-stop line, then any empty lines, and repeat. -/
def popTailStops (l : List (List Char)) : List (List Char) :=
  popTailAux false l

/-- `normalize_text` from `src/aidigest/ingest/normalize.py`. -/
def normalize_text (s : String) : String :=
  let noZW := s.data.filter (fun c => !isZeroWidth c)
  let nl := normNewlines noZW
  let lines := splitOnChar '\n' nl
  let compactRev := (lines.map processLine).foldl addCompactLine []
  let noTrailing := compactRev.dropWhile List.isEmpty
  let afterTail := popTailStops noTrailing
  let noLeading := afterTail.reverse.dropWhile List.isEmpty
  let joined := List.intercalate ['\n'] noLeading
  String.mk (collapseBlankRuns (pyStripL joined))

/-- `compute_content_hash` from `src/aidigest/ingest/normalize.py`.
SHA-256 of the payload is modelled as the payload itself (the hex digest is
injective on payloads up to collisions); `posted_at` enters as its
`str(...)` rendering. -/
def compute_content_hash (text_norm : Option String) (has_media : Bool)
    (permalink : Option String) (posted_at : String) : String :=
  let normalized := pyStrip (text_norm.getD "")
  if normalized ≠ "" then normalized
  else if has_media then "media-only:" ++ posted_at ++ ":" ++ permalink.getD ""
  else "empty:" ++ posted_at ++ ":" ++ permalink.getD ""

/-- The content hash as ingestion computes it for a fetched message
(`fetch_window.py`: `compute_content_hash(normalize_text(source_text), ...)`;
the source passes `None` for an empty normalized text, which
`compute_content_hash` treats identically to `""`). -/
def contentHashOfText (t : String) (has_media : Bool)
    (permalink : Option String) (posted_at : String) : String :=
  compute_content_hash (some (normalize_text t)) has_media permalink posted_at

/-! ### Structural facts about `normalize_text` needed for the hash claims -/

theorem mem_dropWhile_of_mem {α : Type} (p : α → Bool) (a : α) :
    ∀ l : List α, a ∈ l → p a = false → a ∈ l.dropWhile p := by
  intro l
  induction l with
  | nil => intro h; cases h
  | cons x xs ih =>
    intro hmem hpa
    by_cases hx : p x = true
    · simp only [List.dropWhile_cons, hx, if_true]
      rcases List.mem_cons.mp hmem with rfl | hmem2
      · rw [hx] at hpa; cases hpa
      · exact ih hmem2 hpa
    · simp only [List.dropWhile_cons, hx, if_false]
      exact hmem

theorem mem_rdropWhile_of_mem {α : Type} (p : α → Bool) (a : α) (l : List α)
    (hmem : a ∈ l) (hpa : p a = false) : a ∈ l.rdropWhile p := by
  unfold List.rdropWhile
  exact List.mem_reverse.mpr
    (mem_dropWhile_of_mem p a l.reverse (List.mem_reverse.mpr hmem) hpa)

theorem head_dropWhile_false {α : Type} (p : α → Bool) :
    ∀ (l : List α) (c : α) (rest : List α), l.dropWhile p = c :: rest → p c = false := by
  intro l
  induction l with
  | nil => intro c rest h; simp [List.dropWhile] at h
  | cons x xs ih =>
    intro c rest h
    by_cases hx : p x = true
    · simp only [List.dropWhile_cons, hx, if_true] at h
      exact ih c rest h
    · simp only [List.dropWhile_cons, hx, if_false] at h
      cases h
      exact eq_false_of_ne_true hx

theorem pyStripL_ne_nil_of_mem (a : Char) (l : List Char)
    (hmem : a ∈ l) (ha : isPyWs a = false) : pyStripL l ≠ [] := by
  unfold pyStripL
  exact List.ne_nil_of_mem
    (mem_dropWhile_of_mem isPyWs a _ (mem_rdropWhile_of_mem isPyWs a l hmem ha) ha)

theorem strip_collapse_strip_ne (l : List Char)
    (h : collapseBlankRuns (pyStripL l) ≠ []) :
    pyStripL (collapseBlankRuns (pyStripL l)) ≠ [] := by
  rcases hdw : pyStripL l with _ | ⟨c, rest⟩
  · rw [hdw] at h
    simp [collapseBlankRuns, collapseBlankAux] at h
  · have hcws : isPyWs c = false := head_dropWhile_false isPyWs _ c rest hdw
    have hcnl : ¬ (c = '\n') := by
      intro hc
      rw [hc] at hcws
      simp [isPyWs] at hcws
    have hshape : collapseBlankRuns (c :: rest) = c :: collapseBlankAux 0 rest := by
      show collapseBlankAux 0 (c :: rest) = _
      rw [collapseBlankAux.eq_def]
      simp [hcnl]
    rw [hshape]
    exact pyStripL_ne_nil_of_mem c _ (List.mem_cons_self _ _) hcws

/-- A non-empty `normalize_text` output survives the `.strip()` inside
`compute_content_hash`. -/
theorem pyStrip_normalize_ne_empty (s : String) (h : normalize_text s ≠ "") :
    pyStrip (normalize_text s) ≠ "" := by
  obtain ⟨l, hl⟩ : ∃ l : List Char,
      normalize_text s = String.mk (collapseBlankRuns (pyStripL l)) := ⟨_, rfl⟩
  rw [hl] at h ⊢
  have hne : collapseBlankRuns (pyStripL l) ≠ [] := by
    intro hc
    apply h
    rw [String.ext_iff]
    exact hc
  have := strip_collapse_strip_ne l hne
  unfold pyStrip
  intro hc
  rw [String.ext_iff] at hc
  exact this hc

/-! ## Content Store: `upsert_post` (`src/aidigest/db/repo_posts.py`) -/

/-- One row of the `posts` table. Engagement payloads (`raw`, `reactions`)
are opaque to every verified code path and are modelled as strings. -/
structure PostRow where
  channel_id : Int
  message_id : Int
  posted_at : Int
  edited_at : Option Int
  text : Option String
  raw : Option String
  has_media : Bool
  views : Option Int
  forwards : Option Int
  reactions : Option String
  permalink : Option String
  content_hash : String
  lang : Option String
deriving DecidableEq, Repr

/-- The unique key `(channel_id, message_id)` of the `posts` table. -/
def postKey (r : PostRow) : Int × Int := (r.channel_id, r.message_id)

/-- The `on_conflict_do_update` SET clause of `upsert_post`: mutable fields
are overwritten, the key and `posted_at` are kept (the update value list in
the source omits `posted_at`). -/
def updatePostRow (old incoming : PostRow) : PostRow :=
  { channel_id := old.channel_id
    message_id := old.message_id
    posted_at := old.posted_at
    edited_at := incoming.edited_at
    text := incoming.text
    raw := incoming.raw
    has_media := incoming.has_media
    views := incoming.views
    forwards := incoming.forwards
    reactions := incoming.reactions
    permalink := incoming.permalink
    content_hash := incoming.content_hash
    lang := incoming.lang }

/-- `upsert_post`: insert on a fresh `(channel_id, message_id)` key, update
the mutable fields in place on a conflicting one. -/
def upsert_post (table : List PostRow) (p : PostRow) : List PostRow :=
  if table.any (fun r => decide (postKey r = postKey p)) then
    table.map (fun r => if postKey r = postKey p then updatePostRow r p else r)
  else table ++ [p]

/-- Re-running ingestion for a window is a fold of `upsert_post` over the
fetched batch (`ingest_posts_for_date` upserts each fetched message). -/
def ingestRun (table : List PostRow) (batch : List PostRow) : List PostRow :=
  batch.foldl upsert_post table

/-- No two rows of the table share a `(channel_id, message_id)` key — the
`posts_channel_message_uidx` unique constraint. -/
def NodupKeys (table : List PostRow) : Prop := (table.map postKey).Nodup

theorem updatePostRow_key (old incoming : PostRow) :
    postKey (updatePostRow old incoming) = postKey old := rfl

theorem upsert_present_iff (table : List PostRow) (p : PostRow) :
    (table.any (fun r => decide (postKey r = postKey p))) = true
      ↔ postKey p ∈ table.map postKey := by
  simp only [List.any_eq_true, decide_eq_true_eq, List.mem_map]

theorem upsert_keys_present (table : List PostRow) (p : PostRow)
    (h : postKey p ∈ table.map postKey) :
    (upsert_post table p).map postKey = table.map postKey := by
  unfold upsert_post
  rw [if_pos ((upsert_present_iff table p).mpr h)]
  rw [List.map_map]
  apply List.map_congr_left
  intro r _
  simp only [Function.comp_apply]
  by_cases hk : postKey r = postKey p
  · rw [if_pos hk, updatePostRow_key]
  · rw [if_neg hk]

theorem upsert_keys_absent (table : List PostRow) (p : PostRow)
    (h : postKey p ∉ table.map postKey) :
    (upsert_post table p).map postKey = table.map postKey ++ [postKey p] := by
  have hfalse : ¬ (table.any (fun r => decide (postKey r = postKey p)) = true) := by
    intro hany
    exact h ((upsert_present_iff table p).mp hany)
  unfold upsert_post
  rw [if_neg hfalse]
  simp

theorem upsert_nodup (table : List PostRow) (p : PostRow) (h : NodupKeys table) :
    NodupKeys (upsert_post table p) := by
  unfold NodupKeys at *
  by_cases hp : postKey p ∈ table.map postKey
  · rw [upsert_keys_present table p hp]
    exact h
  · rw [upsert_keys_absent table p hp]
    refine List.Nodup.append h (List.nodup_singleton _) ?_
    intro a ha hb
    rw [List.mem_singleton] at hb
    subst hb
    exact hp ha

theorem upsert_key_mem (table : List PostRow) (p : PostRow) :
    postKey p ∈ (upsert_post table p).map postKey := by
  by_cases hp : postKey p ∈ table.map postKey
  · rw [upsert_keys_present table p hp]; exact hp
  · rw [upsert_keys_absent table p hp]; simp

theorem upsert_keys_superset (table : List PostRow) (p : PostRow) (k : Int × Int)
    (h : k ∈ table.map postKey) : k ∈ (upsert_post table p).map postKey := by
  by_cases hp : postKey p ∈ table.map postKey
  · rw [upsert_keys_present table p hp]; exact h
  · rw [upsert_keys_absent table p hp]; simp [h]

theorem ingestRun_nodup (batch : List PostRow) :
    ∀ table : List PostRow, NodupKeys table → NodupKeys (ingestRun table batch) := by
  induction batch with
  | nil => intro table h; exact h
  | cons b bs ih =>
    intro table h
    exact ih (upsert_post table b) (upsert_nodup table b h)

theorem ingestRun_keys_superset (batch : List PostRow) :
    ∀ (table : List PostRow) (k : Int × Int), k ∈ table.map postKey →
      k ∈ (ingestRun table batch).map postKey := by
  induction batch with
  | nil => intro table k h; exact h
  | cons b bs ih =>
    intro table k h
    exact ih (upsert_post table b) k (upsert_keys_superset table b k h)

theorem ingestRun_batch_keys (batch : List PostRow) :
    ∀ table : List PostRow, ∀ b ∈ batch, postKey b ∈ (ingestRun table batch).map postKey := by
  induction batch with
  | nil => intro table b h; cases h
  | cons x xs ih =>
    intro table b hb
    rcases List.mem_cons.mp hb with rfl | hb2
    · exact ingestRun_keys_superset xs (upsert_post table b) _ (upsert_key_mem table b)
    · exact ih (upsert_post table x) b hb2

theorem ingestRun_keys_stable (batch : List PostRow) :
    ∀ table : List PostRow, (∀ b ∈ batch, postKey b ∈ table.map postKey) →
      (ingestRun table batch).map postKey = table.map postKey := by
  induction batch with
  | nil => intro table _; rfl
  | cons x xs ih =>
    intro table h
    have hx : postKey x ∈ table.map postKey := h x (List.mem_cons_self _ _)
    have hstep := upsert_keys_present table x hx
    have := ih (upsert_post table x) (by
      intro b hb
      rw [hstep]
      exact h b (List.mem_cons_of_mem _ hb))
    unfold ingestRun at *
    simp only [List.foldl_cons]
    rw [this, hstep]

theorem find_upsert_update (table : List PostRow) (p old : PostRow)
    (h : List.find? (fun r => decide (postKey r = postKey p)) table = some old) :
    List.find? (fun r => decide (postKey r = postKey p)) (upsert_post table p)
      = some (updatePostRow old p) := by
  have hmem : postKey p ∈ table.map postKey := by
    have := List.find?_some h
    simp only [decide_eq_true_eq] at this
    exact this ▸ List.mem_map_of_mem postKey (List.mem_of_find?_eq_some h)
  unfold upsert_post
  rw [if_pos ((upsert_present_iff table p).mpr hmem)]
  clear hmem
  induction table with
  | nil => simp [List.find?] at h
  | cons r rs ih =>
    by_cases hk : postKey r = postKey p
    · rw [List.find?_cons_of_pos _ (by simpa using hk)] at h
      cases h
      simp only [List.map_cons, if_pos hk]
      rw [List.find?_cons_of_pos]
      simpa [updatePostRow_key] using hk
    · rw [List.find?_cons_of_neg _ (by simpa using hk)] at h
      simp only [List.map_cons, if_neg hk]
      rw [List.find?_cons_of_neg _ (by simpa using hk)]
      exact ih h

instance : ∀ t : List PostRow, Decidable (NodupKeys t) := fun t => by
  unfold NodupKeys; infer_instance

/-! ## Claim C4 -/

/-- Claim C4 (counterexample): the claim "for every pair of texts t1, t2
that normalize to the same value, content_hash(t1) equals content_hash(t2)"
fails as stated. The texts `" "` and `""` differ only by whitespace and
normalize to the same (empty) value, yet two items carrying them receive
different content hashes, because an item whose normalized text is empty is
hashed from its `posted_at`/`permalink` metadata instead. -/
theorem content_hash_normalization_cex :
    normalize_text " " = normalize_text "" ∧
    contentHashOfText " " false none "2026-02-03 21:00:00+00:00"
      ≠ contentHashOfText "" false none "2026-02-04 21:00:00+00:00" := by
  constructor
  · decide
  · decide

/-- Claim C4 (amended): for every pair of texts that normalize to the same
value (differing only by whitespace, zero-width characters, or trailing
promotional lines), provided that common normalized value is non-empty,
`content_hash(t1)` equals `content_hash(t2)` — regardless of the two items'
media flags, permalinks and timestamps. (Empty-normalizing texts are instead
hashed from the item's metadata.) -/
theorem content_hash_normalization_amended (t1 t2 : String) (m1 m2 : Bool)
    (p1 p2 : Option String) (d1 d2 : String)
    (heq : normalize_text t1 = normalize_text t2) (hne : normalize_text t1 ≠ "") :
    contentHashOfText t1 m1 p1 d1 = contentHashOfText t2 m2 p2 d2 := by
  have h1 : pyStrip (normalize_text t1) ≠ "" := pyStrip_normalize_ne_empty t1 hne
  unfold contentHashOfText compute_content_hash
  simp only [Option.getD_some]
  rw [heq] at h1 ⊢
  rw [if_pos h1, if_pos h1]

theorem content_hash_normalization_amended_witness :
    normalize_text "Привет   мир" = normalize_text "Привет мир" ∧
    normalize_text "Привет   мир" ≠ "" ∧
    contentHashOfText "Привет   мир" false none "d1"
      = contentHashOfText "Привет мир" true (some "x") "d2" :=
  ⟨by decide, by decide,
    content_hash_normalization_amended "Привет   мир" "Привет мир" false true
      none (some "x") "d1" "d2" (by decide) (by decide)⟩

/-! ## Claim C6 -/

/-- Claim C6: ingestion is idempotent. Starting from a table with unique
`(channel_id, message_id)` keys: (1) a fold of upserts never creates a
duplicate key; (2) re-running the same ingestion batch leaves the total row
count unchanged; (3) upserting an item whose key already exists keeps both
the length and the key list of the table unchanged; and (4) such a conflict
updates the existing row's mutable fields in place (`updatePostRow`) rather
than inserting a new row. -/
theorem ingestion_idempotence (table batch : List PostRow) (hnd : NodupKeys table) :
    NodupKeys (ingestRun table batch) ∧
    (ingestRun (ingestRun table batch) batch).length = (ingestRun table batch).length ∧
    (∀ p : PostRow, postKey p ∈ table.map postKey →
      (upsert_post table p).length = table.length ∧
      (upsert_post table p).map postKey = table.map postKey) ∧
    (∀ p old : PostRow,
      List.find? (fun r => decide (postKey r = postKey p)) table = some old →
      List.find? (fun r => decide (postKey r = postKey p)) (upsert_post table p)
        = some (updatePostRow old p)) := by
  refine ⟨ingestRun_nodup batch table hnd, ?_, ?_, ?_⟩
  · have hkeys : (ingestRun (ingestRun table batch) batch).map postKey
        = (ingestRun table batch).map postKey :=
      ingestRun_keys_stable batch (ingestRun table batch)
        (fun b hb => ingestRun_batch_keys batch table b hb)
    have := congrArg List.length hkeys
    simpa using this
  · intro p hp
    refine ⟨?_, upsert_keys_present table p hp⟩
    have := congrArg List.length (upsert_keys_present table p hp)
    simpa using this
  · intro p old h
    exact find_upsert_update table p old h

/-- A sample stored post row used by concrete witnesses. -/
def sampleRowA : PostRow :=
  { channel_id := 1
    message_id := 10
    posted_at := 5
    edited_at := none
    text := some "a"
    raw := none
    has_media := false
    views := none
    forwards := none
    reactions := none
    permalink := none
    content_hash := "h1"
    lang := none }

/-- A second sample post row (same channel, different message id). -/
def sampleRowB : PostRow :=
  { channel_id := 1
    message_id := 11
    posted_at := 6
    edited_at := none
    text := some "b"
    raw := none
    has_media := true
    views := some 3
    forwards := none
    reactions := none
    permalink := some "https://t.me/c/11"
    content_hash := "h2"
    lang := none }

theorem ingestion_idempotence_witness :
    NodupKeys [sampleRowA] ∧
    (ingestRun (ingestRun [sampleRowA] [sampleRowB]) [sampleRowB]).length
      = (ingestRun [sampleRowA] [sampleRowB]).length :=
  ⟨by decide, (ingestion_idempotence [sampleRowA] [sampleRowB] (by decide)).2.1⟩

/-! ## Semantic Dedup Engine (`src/aidigest/nlp/dedup.py`,
`src/aidigest/db/repo_dedup_clusters.py`) -/

/-- One row returned by `get_posts_for_semantic_dedup`: a window post with a
non-null embedding. The pgvector embedding is modelled as an opaque
identifier; cosine similarity over embeddings is a parameter `simf` of the
model. -/
structure DedupPost where
  post_id : Int
  posted_at : Int
  embedding : Int
  importance : Option Int
deriving DecidableEq, Repr

/-- One row returned by `find_similar_posts_for_embedding`. -/
structure SimilarPost where
  post_id : Int
  similarity : ℚ
deriving DecidableEq, Repr

/-- `ClusterResult` from `nlp/dedup.py`. -/
structure ClusterResult where
  representative_post_id : Int
  members : List (Int × ℚ)
deriving DecidableEq, Repr

def memberIds (c : ClusterResult) : List Int := c.members.map Prod.fst

def clustersIds (cs : List ClusterResult) : List Int := cs.flatMap memberIds

/-- Sort key of the `get_posts_for_semantic_dedup` query:
`importance DESC NULLS LAST, posted_at ASC, id ASC`, encoded as an
ascending lexicographic 4-tuple. -/
def dedupKey (p : DedupPost) : Int × Int × Int × Int :=
  (if p.importance.isSome then 0 else 1, -(p.importance.getD 0), p.posted_at, p.post_id)

/-- The iteration priority of the dedup engine (`p` comes no later than
`q`). -/
def dedupPriority (p q : DedupPost) : Prop := lex4 (dedupKey p) (dedupKey q)

instance : DecidableRel dedupPriority := fun p q => by
  unfold dedupPriority; infer_instance

instance : IsTotal DedupPost dedupPriority :=
  ⟨fun a b => lex4_total (dedupKey a) (dedupKey b)⟩

instance : IsTrans DedupPost dedupPriority :=
  ⟨fun a b c => lex4_trans (dedupKey a) (dedupKey b) (dedupKey c)⟩

/-- `get_posts_for_semantic_dedup`: window posts with a non-null embedding
in priority order. (Python's `sorted` is stable; since `id` is part of the
key, the key order is already total on distinct rows.) -/
def get_posts_for_semantic_dedup (posts : List DedupPost) : List DedupPost :=
  List.insertionSort dedupPriority posts

/-- Neighbor ordering of `find_similar_posts_for_embedding`:
cosine distance ascending (= similarity descending), then id ascending. -/
def simOrder (simf : Int → Int → ℚ) (e : Int) (p q : DedupPost) : Prop :=
  simf e q.embedding < simf e p.embedding ∨
    (simf e q.embedding = simf e p.embedding ∧ p.post_id ≤ q.post_id)

instance (simf : Int → Int → ℚ) (e : Int) : DecidableRel (simOrder simf e) :=
  fun p q => by unfold simOrder; infer_instance

theorem simOrder_total (simf : Int → Int → ℚ) (e : Int) :
    ∀ p q, simOrder simf e p q ∨ simOrder simf e q p := by
  intro p q
  unfold simOrder
  rcases lt_trichotomy (simf e q.embedding) (simf e p.embedding) with h | h | h
  · exact Or.inl (Or.inl h)
  · rcases le_total p.post_id q.post_id with h2 | h2
    · exact Or.inl (Or.inr ⟨h, h2⟩)
    · exact Or.inr (Or.inr ⟨h.symm, h2⟩)
  · exact Or.inr (Or.inl h)

theorem simOrder_trans (simf : Int → Int → ℚ) (e : Int) :
    ∀ p q r, simOrder simf e p q → simOrder simf e q r → simOrder simf e p r := by
  intro p q r hpq hqr
  unfold simOrder at *
  rcases hpq with h1 | ⟨h1, h1b⟩ <;> rcases hqr with h2 | ⟨h2, h2b⟩
  · exact Or.inl (lt_trans h2 h1)
  · exact Or.inl (h2 ▸ h1)
  · exact Or.inl (h1 ▸ h2)
  · exact Or.inr ⟨h2.trans h1, h1b.trans h2b⟩

instance (simf : Int → Int → ℚ) (e : Int) : IsTotal DedupPost (simOrder simf e) :=
  ⟨simOrder_total simf e⟩

instance (simf : Int → Int → ℚ) (e : Int) : IsTrans DedupPost (simOrder simf e) :=
  ⟨simOrder_trans simf e⟩

/-- `find_similar_posts_for_embedding`: the top-`k` window posts with an
embedding, excluding already-assigned ids, ordered by cosine distance
ascending then id ascending. -/
def find_similar_posts_for_embedding (simf : Int → Int → ℚ)
    (allPosts : List DedupPost) (repEmbedding : Int) (excluded : List Int)
    (top_k : Int) : List SimilarPost :=
  if top_k ≤ 0 then []
  else
    let rows := allPosts.filter (fun p => decide (p.post_id ∉ excluded))
    let sorted := List.insertionSort (simOrder simf repEmbedding) rows
    (sorted.take top_k.toNat).map
      (fun p => ⟨p.post_id, simf repEmbedding p.embedding⟩)

/-- The body of the `for candidate in similar_posts` loop of
`_build_clusters`: state is `(members, assigned)`. -/
def addCandidate (threshold : ℚ) (st : List (Int × ℚ) × List Int)
    (cand : SimilarPost) : List (Int × ℚ) × List Int :=
  if cand.post_id ∈ st.2 then st
  else if cand.similarity < threshold then st
  else (st.1 ++ [(cand.post_id, cand.similarity)], cand.post_id :: st.2)

/-- One unassigned outer-loop step of `_build_clusters`: start a cluster at
`p` with membership similarity `1.0`, mark `p` assigned, query the top-`k`
neighbors excluding the assigned set, and fold them through the candidate
loop. Returns the cluster's member list and the new assigned set. -/
def innerState (simf : Int → Int → ℚ) (allPosts : List DedupPost)
    (threshold : ℚ) (top_k : Int) (p : DedupPost) (assigned : List Int) :
    List (Int × ℚ) × List Int :=
  (find_similar_posts_for_embedding simf allPosts p.embedding
      (p.post_id :: assigned) top_k).foldl
    (addCandidate threshold) ([(p.post_id, 1)], p.post_id :: assigned)

/-- The outer loop of `_build_clusters`, iterating the priority-ordered
posts with the running `assigned` set. -/
def buildClustersAux (simf : Int → Int → ℚ) (allPosts : List DedupPost)
    (threshold : ℚ) (top_k : Int) :
    List DedupPost → List Int → List ClusterResult × List Int
  | [], assigned => ([], assigned)
  | p :: rest, assigned =>
    if p.post_id ∈ assigned then
      buildClustersAux simf allPosts threshold top_k rest assigned
    else
      ((⟨p.post_id, (innerState simf allPosts threshold top_k p assigned).1⟩ :
          ClusterResult) ::
        (buildClustersAux simf allPosts threshold top_k rest
          (innerState simf allPosts threshold top_k p assigned).2).1,
        (buildClustersAux simf allPosts threshold top_k rest
          (innerState simf allPosts threshold top_k p assigned).2).2)

/-- `_build_clusters` from `nlp/dedup.py`: greedy single-pass clustering
over the priority-ordered embedded posts of a window; returns the clusters
and the number of assigned posts. -/
def buildClusters (simf : Int → Int → ℚ) (threshold : ℚ) (top_k : Int)
    (posts : List DedupPost) : List ClusterResult × Nat :=
  let it := get_posts_for_semantic_dedup posts
  let r := buildClustersAux simf it threshold top_k it []
  (r.1, r.2.length)

/-! ### Invariants of the dedup engine -/

theorem find_similar_mem (simf : Int → Int → ℚ) (allPosts : List DedupPost)
    (e : Int) (excluded : List Int) (top_k : Int) (s : SimilarPost)
    (hs : s ∈ find_similar_posts_for_embedding simf allPosts e excluded top_k) :
    s.post_id ∉ excluded ∧ ∃ q ∈ allPosts, q.post_id = s.post_id := by
  unfold find_similar_posts_for_embedding at hs
  by_cases hk : top_k ≤ 0
  · rw [if_pos hk] at hs; cases hs
  · rw [if_neg hk] at hs
    simp only [List.mem_map] at hs
    obtain ⟨q, hq, rfl⟩ := hs
    have hq2 : q ∈ List.insertionSort (simOrder simf e)
        (allPosts.filter (fun p => decide (p.post_id ∉ excluded))) :=
      List.mem_of_mem_take hq
    have hq3 : q ∈ allPosts.filter (fun p => decide (p.post_id ∉ excluded)) :=
      (List.perm_insertionSort _ _).mem_iff.mp hq2
    have hq4 := List.mem_filter.mp hq3
    refine ⟨?_, q, hq4.1, rfl⟩
    simpa using hq4.2

theorem innerFold_spec (th : ℚ) (B0 : List Int) :
    ∀ (cands : List SimilarPost) (members : List (Int × ℚ)) (B : List Int),
      (members.map Prod.fst).Nodup →
      (∀ x, x ∈ B ↔ x ∈ B0 ∨ x ∈ members.map Prod.fst) →
      (((cands.foldl (addCandidate th) (members, B)).1.map Prod.fst).Nodup ∧
       (∀ x, x ∈ (cands.foldl (addCandidate th) (members, B)).2 ↔
          x ∈ B0 ∨ x ∈ (cands.foldl (addCandidate th) (members, B)).1.map Prod.fst) ∧
       (∀ x ∈ (cands.foldl (addCandidate th) (members, B)).1.map Prod.fst,
          x ∈ members.map Prod.fst ∨ x ∈ cands.map SimilarPost.post_id) ∧
       (∃ suffix, (cands.foldl (addCandidate th) (members, B)).1 = members ++ suffix)) := by
  intro cands
  induction cands with
  | nil =>
    intro members B h1 h2
    exact ⟨h1, h2, fun x hx => Or.inl hx, [], (List.append_nil members).symm⟩
  | cons c cs ih =>
    intro members B h1 h2
    simp only [List.foldl_cons]
    have hRw : addCandidate th (members, B) c =
        if c.post_id ∈ B then (members, B)
        else if c.similarity < th then (members, B)
        else (members ++ [(c.post_id, c.similarity)], c.post_id :: B) := rfl
    by_cases hc1 : c.post_id ∈ B
    · rw [hRw, if_pos hc1]
      obtain ⟨g1, g2, g3, g4⟩ := ih members B h1 h2
      exact ⟨g1, g2, fun x hx => (g3 x hx).imp id (fun h => by
        simp only [List.map_cons]; exact List.mem_cons_of_mem _ h), g4⟩
    · by_cases hc2 : c.similarity < th
      · rw [hRw, if_neg hc1, if_pos hc2]
        obtain ⟨g1, g2, g3, g4⟩ := ih members B h1 h2
        exact ⟨g1, g2, fun x hx => (g3 x hx).imp id (fun h => by
          simp only [List.map_cons]; exact List.mem_cons_of_mem _ h), g4⟩
      · rw [hRw, if_neg hc1, if_neg hc2]
        have hcm : c.post_id ∉ members.map Prod.fst := by
          intro hmem
          exact hc1 ((h2 c.post_id).mpr (Or.inr hmem))
        have h1' : ((members ++ [(c.post_id, c.similarity)]).map Prod.fst).Nodup := by
          rw [List.map_append]
          refine List.Nodup.append h1 (by simp) ?_
          intro a ha hb
          simp only [List.map_cons, List.map_nil, List.mem_singleton] at hb
          subst hb
          exact hcm ha
        have h2' : ∀ x, x ∈ c.post_id :: B ↔
            x ∈ B0 ∨ x ∈ (members ++ [(c.post_id, c.similarity)]).map Prod.fst := by
          intro x
          rw [List.map_append]
          simp only [List.mem_cons, List.mem_append, List.map_cons, List.map_nil,
            List.mem_singleton, List.not_mem_nil, or_false]
          constructor
          · rintro (rfl | hxB)
            · exact Or.inr (Or.inr rfl)
            · rcases (h2 x).mp hxB with h | h
              · exact Or.inl h
              · exact Or.inr (Or.inl h)
          · rintro (h | h | rfl)
            · exact Or.inr ((h2 x).mpr (Or.inl h))
            · exact Or.inr ((h2 x).mpr (Or.inr h))
            · exact Or.inl rfl
        obtain ⟨g1, g2, g3, g4⟩ := ih (members ++ [(c.post_id, c.similarity)])
          (c.post_id :: B) h1' h2'
        refine ⟨g1, g2, ?_, ?_⟩
        · intro x hx
          rcases g3 x hx with h | h
          · rw [List.map_append] at h
            rcases List.mem_append.mp h with h | h
            · exact Or.inl h
            · simp only [List.map_cons, List.map_nil, List.mem_singleton] at h
              subst h
              simp
          · simp only [List.map_cons]
            exact Or.inr (List.mem_cons_of_mem _ h)
        · obtain ⟨suffix, hsuffix⟩ := g4
          exact ⟨(c.post_id, c.similarity) :: suffix, by
            rw [hsuffix, List.append_assoc]; rfl⟩

theorem buildClustersAux_spec (simf : Int → Int → ℚ) (allPosts : List DedupPost)
    (th : ℚ) (k : Int) (hndAll : (allPosts.map DedupPost.post_id).Nodup) :
    ∀ (it : List DedupPost) (A : List Int),
      (∀ q ∈ it, q ∈ allPosts) →
      List.Sorted dedupPriority it →
      (∀ q ∈ allPosts, q.post_id ∉ A → q ∈ it) →
      ((∀ x, x ∈ (buildClustersAux simf allPosts th k it A).2 ↔
          x ∈ A ∨ x ∈ clustersIds (buildClustersAux simf allPosts th k it A).1) ∧
       (clustersIds (buildClustersAux simf allPosts th k it A).1).Nodup ∧
       (∀ x ∈ clustersIds (buildClustersAux simf allPosts th k it A).1, x ∉ A) ∧
       (∀ x ∈ clustersIds (buildClustersAux simf allPosts th k it A).1,
          x ∈ allPosts.map DedupPost.post_id) ∧
       (∀ q ∈ it, q.post_id ∈ (buildClustersAux simf allPosts th k it A).2) ∧
       (∀ c ∈ (buildClustersAux simf allPosts th k it A).1,
          c.representative_post_id ∈ memberIds c) ∧
       (∀ c ∈ (buildClustersAux simf allPosts th k it A).1,
          ∀ m ∈ memberIds c, ∀ pr pm : DedupPost,
            pr ∈ allPosts → pm ∈ allPosts → pr.post_id = c.representative_post_id →
            pm.post_id = m → dedupPriority pr pm)) := by
  intro it
  induction it with
  | nil =>
    intro A hsub hsort hcover
    simp only [buildClustersAux, clustersIds, List.flatMap_nil]
    refine ⟨fun x => by simp, List.nodup_nil, ?_, ?_, ?_, ?_, ?_⟩
    · intro x hx; cases hx
    · intro x hx; cases hx
    · intro q hq; cases hq
    · intro c hc; cases hc
    · intro c hc; cases hc
  | cons p rest ih =>
    intro A hsub hsort hcover
    have hsubRest : ∀ q ∈ rest, q ∈ allPosts := fun q hq => hsub q (List.mem_cons_of_mem _ hq)
    have hsortRest : List.Sorted dedupPriority rest := (List.sorted_cons.mp hsort).2
    have hsortHead : ∀ b ∈ rest, dedupPriority p b := (List.sorted_cons.mp hsort).1
    have hpAll : p ∈ allPosts := hsub p (List.mem_cons_self _ _)
    by_cases hp : p.post_id ∈ A
    · have hcoverRest : ∀ q ∈ allPosts, q.post_id ∉ A → q ∈ rest := by
        intro q hq hqA
        rcases List.mem_cons.mp (hcover q hq hqA) with rfl | h
        · exact absurd hp hqA
        · exact h
      have hstep2 : buildClustersAux simf allPosts th k (p :: rest) A
          = buildClustersAux simf allPosts th k rest A := by
        simp only [buildClustersAux]
        rw [if_pos hp]
      obtain ⟨J1, J2, J3, J4, J5, J6, J7⟩ := ih A hsubRest hsortRest hcoverRest
      rw [hstep2]
      refine ⟨J1, J2, J3, J4, ?_, J6, J7⟩
      intro q hq
      rcases List.mem_cons.mp hq with rfl | h
      · exact (J1 q.post_id).mpr (Or.inl hp)
      · exact J5 q h
    · -- the unassigned step
      have hstep : buildClustersAux simf allPosts th k (p :: rest) A =
          ((⟨p.post_id, (innerState simf allPosts th k p A).1⟩ : ClusterResult) ::
            (buildClustersAux simf allPosts th k rest
              (innerState simf allPosts th k p A).2).1,
            (buildClustersAux simf allPosts th k rest
              (innerState simf allPosts th k p A).2).2) := by
        simp only [buildClustersAux]
        rw [if_neg hp]
      set cands := find_similar_posts_for_embedding simf allPosts p.embedding
        (p.post_id :: A) k with hcands
      have hcand : ∀ s ∈ cands, s.post_id ∉ (p.post_id :: A) ∧
          ∃ q ∈ allPosts, q.post_id = s.post_id :=
        fun s hs => find_similar_mem simf allPosts p.embedding (p.post_id :: A) k s hs
      have hinner : innerState simf allPosts th k p A =
          cands.foldl (addCandidate th) ([(p.post_id, 1)], p.post_id :: A) := rfl
      obtain ⟨I1, I2, I3, I4⟩ := innerFold_spec th (p.post_id :: A) cands
        [(p.post_id, 1)] (p.post_id :: A) (by simp)
        (by
          intro x
          simp only [List.map_cons, List.map_nil, List.mem_singleton, List.mem_cons,
            List.not_mem_nil, or_false]
          constructor
          · rintro (rfl | h)
            · exact Or.inl (Or.inl rfl)
            · exact Or.inl (Or.inr h)
          · rintro ((rfl | h) | rfl)
            · exact Or.inl rfl
            · exact Or.inr h
            · exact Or.inl rfl)
      rw [← hinner] at I1 I2 I3 I4
      set M := (innerState simf allPosts th k p A).1 with hM
      set A2 := (innerState simf allPosts th k p A).2 with hA2
      -- basic facts about the freshly built cluster
      have hpM : p.post_id ∈ M.map Prod.fst := by
        obtain ⟨suffix, hsuffix⟩ := I4
        rw [hsuffix]
        simp
      have hMsource : ∀ x ∈ M.map Prod.fst, x = p.post_id ∨
          (x ∉ (p.post_id :: A) ∧ ∃ q ∈ allPosts, q.post_id = x) := by
        intro x hx
        rcases I3 x hx with h | h
        · simp only [List.map_cons, List.map_nil, List.mem_singleton] at h
          exact Or.inl h
        · simp only [List.mem_map] at h
          obtain ⟨s, hs, rfl⟩ := h
          exact Or.inr (hcand s hs)
      have hMnotA : ∀ x ∈ M.map Prod.fst, x ∉ A := by
        intro x hx hxA
        rcases hMsource x hx with rfl | ⟨hnot, _⟩
        · exact hp hxA
        · exact hnot (List.mem_cons_of_mem _ hxA)
      have hMall : ∀ x ∈ M.map Prod.fst, x ∈ allPosts.map DedupPost.post_id := by
        intro x hx
        rcases hMsource x hx with rfl | ⟨_, q, hq, rfl⟩
        · exact List.mem_map_of_mem _ hpAll
        · exact List.mem_map_of_mem _ hq
      have hA2sup : ∀ x ∈ (p.post_id :: A), x ∈ A2 := fun x hx => (I2 x).mpr (Or.inl hx)
      have hcoverA2 : ∀ q ∈ allPosts, q.post_id ∉ A2 → q ∈ rest := by
        intro q hq hqA2
        have hqA1 : q.post_id ∉ (p.post_id :: A) := fun h => hqA2 (hA2sup _ h)
        have hqA : q.post_id ∉ A := fun h => hqA1 (List.mem_cons_of_mem _ h)
        rcases List.mem_cons.mp (hcover q hq hqA) with rfl | h
        · exact absurd (List.mem_cons_self _ _) hqA1
        · exact h
      obtain ⟨J1, J2, J3, J4, J5, J6, J7⟩ := ih A2 hsubRest hsortRest hcoverA2
      rw [hstep]
      have hclusterIds : clustersIds
          ((⟨p.post_id, M⟩ : ClusterResult) ::
            (buildClustersAux simf allPosts th k rest A2).1)
          = M.map Prod.fst ++ clustersIds (buildClustersAux simf allPosts th k rest A2).1 := by
        simp [clustersIds, memberIds]
      refine ⟨?_, ?_, ?_, ?_, ?_, ?_, ?_⟩
      · -- assigned set characterization
        intro x
        rw [hclusterIds]
        rw [J1 x]
        constructor
        · rintro (hxA2 | hx)
          · rcases (I2 x).mp hxA2 with h | h
            · rcases List.mem_cons.mp h with rfl | h
              · exact Or.inr (List.mem_append.mpr (Or.inl hpM))
              · exact Or.inl h
            · exact Or.inr (List.mem_append.mpr (Or.inl h))
          · exact Or.inr (List.mem_append.mpr (Or.inr hx))
        · rintro (hxA | hx)
          · exact Or.inl (hA2sup x (List.mem_cons_of_mem _ hxA))
          · rcases List.mem_append.mp hx with h | h
            · exact Or.inl ((I2 x).mpr (Or.inr h))
            · exact Or.inr h
      · -- global nodup
        rw [hclusterIds]
        refine List.Nodup.append I1 J2 ?_
        intro a haM haJ
        exact J3 a haJ ((I2 a).mpr (Or.inr haM))
      · -- fresh ids do not come from A
        rw [hclusterIds]
        intro x hx
        rcases List.mem_append.mp hx with h | h
        · exact hMnotA x h
        · intro hxA
          exact J3 x h (hA2sup x (List.mem_cons_of_mem _ hxA))
      · -- all ids come from the window posts
        rw [hclusterIds]
        intro x hx
        rcases List.mem_append.mp hx with h | h
        · exact hMall x h
        · exact J4 x h
      · -- every iterated post ends assigned
        intro q hq
        rcases List.mem_cons.mp hq with rfl | h
        · exact (J1 q.post_id).mpr (Or.inl ((I2 q.post_id).mpr
            (Or.inl (List.mem_cons_self _ _))))
        · exact J5 q h
      · -- representative membership
        intro c hc
        rcases List.mem_cons.mp hc with rfl | h
        · exact hpM
        · exact J6 c h
      · -- representative priority
        intro c hc m hm pr pm hprAll hpmAll hprId hpmId
        rcases List.mem_cons.mp hc with rfl | h
        · -- the head cluster: representative is p
          have hpr : pr = p :=
            List.inj_on_of_nodup_map hndAll hprAll hpAll hprId
          subst hpr
          rcases hMsource m hm with rfl | ⟨hnot, q, hq, rfl⟩
          · have : pm = pr :=
              List.inj_on_of_nodup_map hndAll hpmAll hprAll (hpmId.trans hprId.symm)
            subst this
            exact lex4_refl _
          · have hpm : pm = q :=
              (List.inj_on_of_nodup_map hndAll hpmAll hq hpmId)
            subst hpm
            have hqA : pm.post_id ∉ A := fun hx => hnot (List.mem_cons_of_mem _ hx)
            rcases List.mem_cons.mp (hcover pm hpmAll hqA) with rfl | hqrest
            · exact absurd (List.mem_cons_self _ _) hnot
            · exact hsortHead pm hqrest
        · exact J7 c h m hm pr pm hprAll hpmAll hprId hpmId

/-- Monotonicity of importance along the iteration priority: an item that
comes no later than another (under `importance DESC NULLS LAST, ...`) has an
importance at least as large, when both are non-null. -/
theorem dedupPriority_importance (pr pm : DedupPost) (h : dedupPriority pr pm)
    (i j : Int) (hi : pr.importance = some i) (hj : pm.importance = some j) :
    j ≤ i := by
  unfold dedupPriority dedupKey at h
  rw [hi, hj] at h
  simp only [Option.isSome_some, Option.getD_some, if_true] at h
  unfold lex4 at h
  dsimp only at h
  omega

/-! ## Claim C2 -/

/-- Claim C2: after a semantic-dedup run over a window, every post of the
window with a non-null embedding belongs to exactly one cluster — it is a
member of some cluster, the concatenated member lists contain no id twice
(so no two clusters share a member and no post is in two clusters) — and
every cluster member is one of the window's embedded posts. -/
theorem dedup_partition_invariant (simf : Int → Int → ℚ) (threshold : ℚ)
    (top_k : Int) (posts : List DedupPost)
    (hnd : (posts.map DedupPost.post_id).Nodup) :
    (∀ p ∈ posts, ∃ c ∈ (buildClusters simf threshold top_k posts).1,
        p.post_id ∈ memberIds c) ∧
    (clustersIds (buildClusters simf threshold top_k posts).1).Nodup ∧
    (∀ x ∈ clustersIds (buildClusters simf threshold top_k posts).1,
        x ∈ posts.map DedupPost.post_id) := by
  have hperm : (get_posts_for_semantic_dedup posts).Perm posts :=
    List.perm_insertionSort _ _
  have hndIt : ((get_posts_for_semantic_dedup posts).map DedupPost.post_id).Nodup :=
    ((hperm.map _).nodup_iff).mpr hnd
  obtain ⟨S1, S2, S3, S4, S5, S6, S7⟩ := buildClustersAux_spec simf
    (get_posts_for_semantic_dedup posts) threshold top_k hndIt
    (get_posts_for_semantic_dedup posts) []
    (fun q hq => hq)
    (List.sorted_insertionSort _ _)
    (fun q hq _ => hq)
  have hbc : (buildClusters simf threshold top_k posts).1 =
      (buildClustersAux simf (get_posts_for_semantic_dedup posts) threshold top_k
        (get_posts_for_semantic_dedup posts) []).1 := rfl
  rw [hbc]
  refine ⟨?_, S2, ?_⟩
  · intro p hp
    have hpIt : p ∈ get_posts_for_semantic_dedup posts := hperm.mem_iff.mpr hp
    rcases (S1 p.post_id).mp (S5 p hpIt) with h | h
    · cases h
    · exact List.mem_flatMap.mp h
  · intro x hx
    exact (hperm.map DedupPost.post_id).mem_iff.mp (S4 x hx)

/-- Concrete similarity table for the dedup counterexample and witnesses:
every pair of distinct embeddings has cosine similarity 19/20. -/
def cexSim : Int → Int → ℚ := fun a b => if a = b then 1 else mkRat 19 20

/-- Three embedded window posts with importances 5, 4, 3. -/
def cexPosts : List DedupPost :=
  [⟨1, 10, 1, some 5⟩, ⟨2, 11, 2, some 4⟩, ⟨3, 12, 3, some 3⟩]

theorem dedup_partition_invariant_witness :
    (cexPosts.map DedupPost.post_id).Nodup ∧
    (∀ p ∈ cexPosts, ∃ c ∈ (buildClusters cexSim (mkRat 9 10) 10 cexPosts).1,
        p.post_id ∈ memberIds c) :=
  ⟨by decide, (dedup_partition_invariant cexSim (mkRat 9 10) 10 cexPosts (by decide)).1⟩

/-! ## Claim C3 -/

/-- Claim C3 (counterexample): the claim "for any two items whose cosine
similarity clears the threshold and whose importances differ, the
higher-importance item becomes the cluster representative" is false as
stated. With three posts of importances 5, 4, 3 that are all pairwise
similar at 19/20 ≥ threshold 9/10, the pair (post 2, post 3) has differing
importances and similarity above the threshold, yet post 2 (the higher of
the pair) is not the representative of any cluster: the single cluster's
representative is post 1. -/
theorem dedup_priority_cex :
    cexSim 2 3 ≥ mkRat 9 10 ∧
    cexPosts.map DedupPost.importance = [some 5, some 4, some 3] ∧
    (buildClusters cexSim (mkRat 9 10) 10 cexPosts).1
      = [⟨1, [(1, 1), (2, mkRat 19 20), (3, mkRat 19 20)]⟩] ∧
    (∀ c ∈ (buildClusters cexSim (mkRat 9 10) 10 cexPosts).1,
      c.representative_post_id ≠ 2) := by
  refine ⟨by decide, by decide, by decide, by decide⟩

/-- Claim C3 (amended): clustering iterates the window's embedded posts in
the order (importance descending with nulls last, posted_at ascending, id
ascending), and the representative of every cluster comes no later in that
priority order than any of the cluster's members; in particular, for two
same-cluster items with non-null importances the representative's
importance is at least the member's, so the lower-importance item of such a
pair is never the representative. (As stated the claim is false: two
qualifying items can both be absorbed into a third item's cluster, or end
up in different clusters when the top-K neighbor cut excludes one.) -/
theorem dedup_priority_amended (simf : Int → Int → ℚ) (threshold : ℚ)
    (top_k : Int) (posts : List DedupPost)
    (hnd : (posts.map DedupPost.post_id).Nodup) :
    (List.Sorted dedupPriority (get_posts_for_semantic_dedup posts) ∧
      (get_posts_for_semantic_dedup posts).Perm posts) ∧
    (∀ c ∈ (buildClusters simf threshold top_k posts).1,
      ∀ m ∈ memberIds c, ∀ pr pm : DedupPost,
        pr ∈ posts → pm ∈ posts → pr.post_id = c.representative_post_id →
        pm.post_id = m →
        (dedupPriority pr pm ∧
          ∀ i j : Int, pr.importance = some i → pm.importance = some j → j ≤ i)) := by
  have hperm : (get_posts_for_semantic_dedup posts).Perm posts :=
    List.perm_insertionSort _ _
  have hndIt : ((get_posts_for_semantic_dedup posts).map DedupPost.post_id).Nodup :=
    ((hperm.map _).nodup_iff).mpr hnd
  obtain ⟨S1, S2, S3, S4, S5, S6, S7⟩ := buildClustersAux_spec simf
    (get_posts_for_semantic_dedup posts) threshold top_k hndIt
    (get_posts_for_semantic_dedup posts) []
    (fun q hq => hq)
    (List.sorted_insertionSort _ _)
    (fun q hq _ => hq)
  refine ⟨⟨List.sorted_insertionSort _ _, hperm⟩, ?_⟩
  intro c hc m hm pr pm hprP hpmP hprId hpmId
  have hprIt : pr ∈ get_posts_for_semantic_dedup posts := hperm.mem_iff.mpr hprP
  have hpmIt : pm ∈ get_posts_for_semantic_dedup posts := hperm.mem_iff.mpr hpmP
  have hpri : dedupPriority pr pm := S7 c hc m hm pr pm hprIt hpmIt hprId hpmId
  exact ⟨hpri, fun i j hi hj => dedupPriority_importance pr pm hpri i j hi hj⟩

theorem dedup_priority_amended_witness :
    (cexPosts.map DedupPost.post_id).Nodup ∧
    List.Sorted dedupPriority (get_posts_for_semantic_dedup cexPosts) :=
  ⟨by decide, (dedup_priority_amended cexSim (mkRat 9 10) 10 cexPosts (by decide)).1.1⟩

/-! ## Digest Ranking & Selection (`src/aidigest/digest/build.py`,
`src/aidigest/db/repo_digest.py`) -/

/-- An active channel row (`get_active_channels` already filters
`is_active`). -/
structure Channel where
  id : Int
  title : String
  username : Option String
deriving DecidableEq, Repr

/-- `DigestPostRecord` from `repo_digest.py`: a window post outer-joined
with its (possibly missing) summary. -/
structure DigestPostRecord where
  post_id : Int
  channel_id : Int
  channel_title : String
  channel_username : Option String
  posted_at : Int
  text : Option String
  permalink : Option String
  content_hash : String
  key_point : Option String
  why_it_matters : Option String
  tags : Option (List String)
  importance : Option Int
  category : Option String
deriving DecidableEq, Repr

/-- `DigestClusterRecord` from `repo_digest.py`. -/
structure DigestClusterRecord where
  cluster_id : Int
  representative_post_id : Option Int
  post_id : Int
  similarity : Option ℚ
  channel_title : String
  channel_username : Option String
  posted_at : Int
  text : Option String
  permalink : Option String
  content_hash : String
  key_point : Option String
  why_it_matters : Option String
  tags : Option (List String)
  importance : Option Int
  category : Option String
deriving DecidableEq, Repr

/-- `DigestPostItem` from `digest/build.py`. -/
structure DigestPostItem where
  post_id : Int
  posted_at : Int
  category : String
  importance : Int
  key_point : String
  why_it_matters : String
  permalink : Option String
  content_hash : String
  source : String
deriving DecidableEq, Repr

/-- `DigestTopCluster` from `digest/build.py`. -/
structure DigestTopCluster where
  post_id : Int
  posted_at : Int
  category : String
  importance : Int
  why_it_matters : String
  permalink : Option String
  source : String
  key_point : String
deriving DecidableEq, Repr

/-- `DigestChannelSection` from `digest/build.py`. -/
structure DigestChannelSection where
  channel_id : Int
  channel_name : String
  posts_count : Nat
  hidden_posts : Int
  total_posts : Nat
  posts : List DigestPostItem
deriving DecidableEq, Repr

/-- `_truncate` from `digest/build.py`. -/
def truncateS (text : String) (limit : Nat) : String :=
  let compact := pyStrip text
  if compact.data.length ≤ limit then compact
  else String.mk ((compact.data.take (limit - 1)).rdropWhile isPyWs ++ "…".data)

/-- `_source_name` from `digest/build.py`. -/
def sourceName (username : Option String) (title : String) : String :=
  match username with
  | some u => if u = "" then title else "@" ++ String.mk (u.data.dropWhile (fun c => c == '@'))
  | none => title

def allowedCategories : List String :=
  ["LLM_RELEASE", "PRACTICE_INSIGHT", "ANALYSIS_OPINION", "DEALS", "OTHER_USEFUL", "NOISE"]

/-- `_normalize_category` from `digest/build.py`:
`str(category or "").strip().upper()`, mapped to `OTHER_USEFUL` when not in
the closed category set. -/
def normalizeCategoryBuild (category : Option String) : String :=
  let normalized := String.mk ((pyStripL (category.getD "").data).map pyUpperChar)
  if normalized ∈ allowedCategories then normalized else "OTHER_USEFUL"

def whyFallbackBuild : String :=
  "Откройте пост, чтобы быстро понять, есть ли практическая польза для ваших задач."

structure CoalescedSummary where
  key_point : String
  why_it_matters : String
  importance : Int
  category : String
deriving DecidableEq, Repr

/-- `_coalesce_summary` from `digest/build.py`: defaults for a missing or
partial summary (importance defaults to 2 and is clamped into 1..5, the key
point falls back to the truncated normalized text, the why-it-matters to a
fixed sentence, the category through `_normalize_category`). -/
def coalesceSummary (key_point why_it_matters : Option String)
    (importance : Option Int) (category : Option String) (text : Option String) :
    CoalescedSummary :=
  let normalized_text := normalize_text (text.getD "")
  let fallback_key_point := truncateS
    (if normalized_text = "" then "Пост без текста" else normalized_text) 120
  let skp := pyStrip (key_point.getD "")
  let swhy := pyStrip (why_it_matters.getD "")
  { key_point := if skp = "" then fallback_key_point else skp
    why_it_matters := if swhy = "" then whyFallbackBuild else swhy
    importance := min 5 (max 1 (importance.getD 2))
    category := normalizeCategoryBuild category }

/-- `_to_post_item` from `digest/build.py`. -/
def toPostItem (record : DigestPostRecord) : DigestPostItem :=
  let r := coalesceSummary record.key_point record.why_it_matters
    record.importance record.category record.text
  { post_id := record.post_id
    posted_at := record.posted_at
    category := r.category
    importance := r.importance
    key_point := r.key_point
    why_it_matters := r.why_it_matters
    permalink := record.permalink
    content_hash := record.content_hash
    source := sourceName record.channel_username record.channel_title }

/-- `_to_top_item` from `digest/build.py`. -/
def toTopItem (record : DigestClusterRecord) : DigestTopCluster :=
  let r := coalesceSummary record.key_point record.why_it_matters
    record.importance record.category record.text
  { post_id := record.post_id
    posted_at := record.posted_at
    category := r.category
    importance := r.importance
    why_it_matters := r.why_it_matters
    permalink := record.permalink
    source := sourceName record.channel_username record.channel_title
    key_point := truncateS r.key_point 80 }

/-- `_is_signal` from `digest/build.py`. -/
def isSignal (category : String) (importance min_importance : Int) : Bool :=
  (!(category == "NOISE")) && decide (min_importance ≤ importance)

/-- Python's `max(..., key=...)` tie-breaking: the first element with a
strictly maximal key wins. Key: `(importance or 0, posted_at, post_id)`. -/
def repKey (row : DigestClusterRecord) : Int × Int × Int :=
  (row.importance.getD 0, row.posted_at, row.post_id)

def lt3 (a b : Int × Int × Int) : Prop :=
  a.1 < b.1 ∨ (a.1 = b.1 ∧ (a.2.1 < b.2.1 ∨ (a.2.1 = b.2.1 ∧ a.2.2 < b.2.2)))

instance : DecidableRel lt3 := fun a b => by
  unfold lt3; infer_instance

/-- `_pick_representative` from `digest/build.py` (`none` only on the empty
row list, which the source never passes). -/
def pickRepresentative (rows : List DigestClusterRecord) : Option DigestClusterRecord :=
  match rows with
  | [] => none
  | r0 :: rest =>
    match r0.representative_post_id with
    | some pid =>
      match rows.find? (fun row => row.post_id == pid) with
      | some row => some row
      | none => some (rest.foldl (fun best row =>
          if lt3 (repKey best) (repKey row) then row else best) r0)
    | none => some (rest.foldl (fun best row =>
        if lt3 (repKey best) (repKey row) then row else best) r0)

/-- The ranking key `(importance, posted_at)` used with `reverse=True`. -/
def postRankKey (i : DigestPostItem) : Int × Int := (i.importance, i.posted_at)

def topRankKey (c : DigestTopCluster) : Int × Int := (c.importance, c.posted_at)

/-- Descending rank order on post items (`sorted(..., reverse=True)`). -/
def postRankGe (a b : DigestPostItem) : Prop := lex2 (postRankKey b) (postRankKey a)

/-- Descending rank order on top-cluster entries. -/
def topRankGe (a b : DigestTopCluster) : Prop := lex2 (topRankKey b) (topRankKey a)

instance : DecidableRel postRankGe := fun a b => by
  unfold postRankGe; infer_instance

instance : DecidableRel topRankGe := fun a b => by
  unfold topRankGe; infer_instance

instance : IsTotal DigestPostItem postRankGe :=
  ⟨fun a b => by unfold postRankGe; exact lex2_total _ _⟩

instance : IsTrans DigestPostItem postRankGe :=
  ⟨fun a b c hab hbc => by
    unfold postRankGe at *
    exact lex2_trans _ _ _ hbc hab⟩

instance : IsTotal DigestTopCluster topRankGe :=
  ⟨fun a b => by unfold topRankGe; exact lex2_total _ _⟩

instance : IsTrans DigestTopCluster topRankGe :=
  ⟨fun a b c hab hbc => by
    unfold topRankGe at *
    exact lex2_trans _ _ _ hbc hab⟩

/-- The `grouped.setdefault(row.cluster_id, []).append(row)` step:
appends to an existing group or opens a new one at the end (Python dicts
preserve insertion order). -/
def insertGrouped (groups : List (Int × List DigestClusterRecord))
    (row : DigestClusterRecord) : List (Int × List DigestClusterRecord) :=
  match groups with
  | [] => [(row.cluster_id, [row])]
  | (cid, rs) :: rest =>
    if cid = row.cluster_id then (cid, rs ++ [row]) :: rest
    else (cid, rs) :: insertGrouped rest row

def groupByCluster (rows : List DigestClusterRecord) :
    List (Int × List DigestClusterRecord) :=
  rows.foldl insertGrouped []

/-- `_build_top_clusters_from_dedup` from `digest/build.py`. -/
def buildTopClustersFromDedup (cluster_records : List DigestClusterRecord)
    (top_n : Nat) (min_importance_global : Int) : List DigestTopCluster :=
  let selected := (groupByCluster cluster_records).filterMap (fun g =>
    match pickRepresentative g.2 with
    | none => none
    | some rep =>
      let item := toTopItem rep
      if isSignal item.category item.importance min_importance_global then some item
      else none)
  (List.insertionSort topRankGe selected).take top_n

/-- Promotion of a ranked raw post to a top entry in the exact-hash
fallback path. -/
def fallbackTopItem (post : DigestPostItem) : DigestTopCluster :=
  { post_id := post.post_id
    posted_at := post.posted_at
    category := post.category
    importance := post.importance
    why_it_matters := post.why_it_matters
    permalink := post.permalink
    source := post.source
    key_point := truncateS post.key_point 80 }

/-- The selection loop of `_build_top_clusters_fallback`: walk the ranked
posts, skip already-seen content hashes and non-signal posts, and stop once
`top_n` entries are selected (`count` is the number selected so far). -/
def fallbackLoop (top_n : Nat) (min_importance_global : Int) :
    List DigestPostItem → List String → Nat → List DigestTopCluster
  | [], _, _ => []
  | post :: rest, seen, count =>
    if post.content_hash ∈ seen then
      fallbackLoop top_n min_importance_global rest seen count
    else
      if isSignal post.category post.importance min_importance_global then
        if count + 1 ≥ top_n then [fallbackTopItem post]
        else fallbackTopItem post ::
          fallbackLoop top_n min_importance_global rest (post.content_hash :: seen) (count + 1)
      else fallbackLoop top_n min_importance_global rest (post.content_hash :: seen) count

/-- `_build_top_clusters_fallback` from `digest/build.py`. -/
def buildTopClustersFallback (posts : List DigestPostItem) (top_n : Nat)
    (min_importance_global : Int) : List DigestTopCluster :=
  fallbackLoop top_n min_importance_global
    (List.insertionSort postRankGe posts) [] 0

/-- The top-cluster selection of `build_digest_data`: the dedup path when
cluster records exist for the window, otherwise the exact-hash fallback
over raw items. -/
def buildTopClusters (cluster_records : List DigestClusterRecord)
    (allItems : List DigestPostItem) (top_n : Nat) (min_importance_global : Int) :
    List DigestTopCluster :=
  if cluster_records.isEmpty then
    buildTopClustersFallback allItems top_n min_importance_global
  else buildTopClustersFromDedup cluster_records top_n min_importance_global

/-- `_build_per_channel` from `digest/build.py`. `postsBy` models the
`posts_by_channel` dict (`.get(channel.id, [])`). -/
def buildPerChannel (channels : List Channel) (postsBy : Int → List DigestPostItem)
    (top_k_per_channel : Nat) (min_importance_channel : Int) :
    List DigestChannelSection :=
  channels.map (fun channel =>
    let all_posts := postsBy channel.id
    let ranked_signal := List.insertionSort postRankGe (all_posts.filter
      (fun post => isSignal post.category post.importance min_importance_channel))
    let shown := ranked_signal.take top_k_per_channel
    { channel_id := channel.id
      channel_name := sourceName channel.username channel.title
      posts_count := shown.length
      hidden_posts := max 0 ((all_posts.length : Int) - shown.length)
      total_posts := all_posts.length
      posts := shown })

/-- The `all_posts` accumulation of `build_digest_data`: every fetched
record — with or without a stored summary — is coalesced into an item. -/
def digestAllPosts (records : List DigestPostRecord) : List DigestPostItem :=
  records.map toPostItem

/-- The `posts_by_channel` grouping of `build_digest_data` for one channel:
the records of that channel, in order. -/
def digestPostsByChannel (records : List DigestPostRecord) (cid : Int) :
    List DigestPostItem :=
  (records.filter (fun r => decide (r.channel_id = cid))).map toPostItem

/-! ### Ranking postconditions -/

theorem isSignal_spec (category : String) (importance minImp : Int)
    (h : isSignal category importance minImp = true) :
    category ≠ "NOISE" ∧ minImp ≤ importance := by
  unfold isSignal at h
  simp only [Bool.and_eq_true, Bool.not_eq_true', beq_eq_false_iff_ne,
    decide_eq_true_eq] at h
  exact h

theorem sorted_take {α : Type} {r : α → α → Prop} {l : List α} (n : Nat)
    (h : List.Sorted r l) : List.Sorted r (l.take n) :=
  List.Pairwise.sublist (List.take_sublist n l) h

theorem fallbackLoop_length (top_n : Nat) (minImp : Int) :
    ∀ (l : List DigestPostItem) (seen : List String) (count : Nat),
      count < top_n →
      (fallbackLoop top_n minImp l seen count).length ≤ top_n - count := by
  intro l
  induction l with
  | nil => intro seen count h; simp [fallbackLoop]
  | cons post rest ih =>
    intro seen count h
    simp only [fallbackLoop]
    by_cases h1 : post.content_hash ∈ seen
    · rw [if_pos h1]
      exact ih seen count h
    · rw [if_neg h1]
      by_cases h2 : isSignal post.category post.importance minImp = true
      · rw [if_pos h2]
        by_cases h3 : count + 1 ≥ top_n
        · rw [if_pos h3]
          simp only [List.length_singleton]
          omega
        · rw [if_neg h3]
          have := ih (post.content_hash :: seen) (count + 1) (by omega)
          simp only [List.length_cons]
          omega
      · rw [if_neg h2]
        exact ih (post.content_hash :: seen) count h

theorem fallbackLoop_mem (top_n : Nat) (minImp : Int) :
    ∀ (l : List DigestPostItem) (seen : List String) (count : Nat),
      ∀ x ∈ fallbackLoop top_n minImp l seen count,
        ∃ p ∈ l, x = fallbackTopItem p ∧
          isSignal p.category p.importance minImp = true := by
  intro l
  induction l with
  | nil => intro seen count x hx; simp [fallbackLoop] at hx
  | cons post rest ih =>
    intro seen count x hx
    simp only [fallbackLoop] at hx
    by_cases h1 : post.content_hash ∈ seen
    · rw [if_pos h1] at hx
      obtain ⟨p, hp, he, hs⟩ := ih seen count x hx
      exact ⟨p, List.mem_cons_of_mem _ hp, he, hs⟩
    · rw [if_neg h1] at hx
      by_cases h2 : isSignal post.category post.importance minImp = true
      · rw [if_pos h2] at hx
        by_cases h3 : count + 1 ≥ top_n
        · rw [if_pos h3] at hx
          rw [List.mem_singleton] at hx
          exact ⟨post, List.mem_cons_self _ _, hx, h2⟩
        · rw [if_neg h3] at hx
          rcases List.mem_cons.mp hx with rfl | hx2
          · exact ⟨post, List.mem_cons_self _ _, rfl, h2⟩
          · obtain ⟨p, hp, he, hs⟩ := ih (post.content_hash :: seen) (count + 1) x hx2
            exact ⟨p, List.mem_cons_of_mem _ hp, he, hs⟩
      · rw [if_neg h2] at hx
        obtain ⟨p, hp, he, hs⟩ := ih (post.content_hash :: seen) count x hx
        exact ⟨p, List.mem_cons_of_mem _ hp, he, hs⟩

theorem topRankKey_fallbackTopItem (p : DigestPostItem) :
    topRankKey (fallbackTopItem p) = postRankKey p := rfl

theorem fallbackLoop_sorted (top_n : Nat) (minImp : Int) :
    ∀ (l : List DigestPostItem) (seen : List String) (count : Nat),
      List.Sorted postRankGe l →
      List.Sorted topRankGe (fallbackLoop top_n minImp l seen count) := by
  intro l
  induction l with
  | nil => intro seen count _; simp [fallbackLoop]
  | cons post rest ih =>
    intro seen count hsort
    have hhead : ∀ b ∈ rest, postRankGe post b := (List.sorted_cons.mp hsort).1
    have htail : List.Sorted postRankGe rest := (List.sorted_cons.mp hsort).2
    simp only [fallbackLoop]
    by_cases h1 : post.content_hash ∈ seen
    · rw [if_pos h1]
      exact ih seen count htail
    · rw [if_neg h1]
      by_cases h2 : isSignal post.category post.importance minImp = true
      · rw [if_pos h2]
        by_cases h3 : count + 1 ≥ top_n
        · rw [if_pos h3]
          simp
        · rw [if_neg h3]
          rw [List.sorted_cons]
          refine ⟨?_, ih (post.content_hash :: seen) (count + 1) htail⟩
          intro y hy
          obtain ⟨p, hp, rfl, _⟩ := fallbackLoop_mem top_n minImp rest
            (post.content_hash :: seen) (count + 1) y hy
          unfold topRankGe
          rw [topRankKey_fallbackTopItem, topRankKey_fallbackTopItem]
          exact hhead p hp
      · rw [if_neg h2]
        exact ih (post.content_hash :: seen) count htail

/-! ## Claim C5 -/

/-- Claim C5: for every window, the global top-N output — the dedup path
over cluster representatives when clusters exist, the exact-hash fallback
over raw items otherwise — contains at most N entries (N ≥ 1, enforced by
the settings validator `validate_top_k`), every entry has a category
different from NOISE and an importance at or above the global importance
threshold, and the entries are sorted by importance descending then
posted_at descending. -/
theorem global_top_n_postcondition (cluster_records : List DigestClusterRecord)
    (allItems : List DigestPostItem) (top_n : Nat) (minG : Int)
    (htop : 0 < top_n) :
    (buildTopClusters cluster_records allItems top_n minG).length ≤ top_n ∧
    (∀ x ∈ buildTopClusters cluster_records allItems top_n minG,
      x.category ≠ "NOISE" ∧ minG ≤ x.importance) ∧
    List.Sorted topRankGe (buildTopClusters cluster_records allItems top_n minG) := by
  unfold buildTopClusters
  by_cases hc : cluster_records.isEmpty
  · rw [if_pos hc]
    unfold buildTopClustersFallback
    refine ⟨?_, ?_, ?_⟩
    · have := fallbackLoop_length top_n minG
        (List.insertionSort postRankGe allItems) [] 0 htop
      omega
    · intro x hx
      obtain ⟨p, _, rfl, hs⟩ := fallbackLoop_mem top_n minG
        (List.insertionSort postRankGe allItems) [] 0 x hx
      exact isSignal_spec p.category p.importance minG hs
    · exact fallbackLoop_sorted top_n minG _ [] 0 (List.sorted_insertionSort _ _)
  · rw [if_neg hc]
    unfold buildTopClustersFromDedup
    refine ⟨?_, ?_, ?_⟩
    · exact List.length_take_le _ _
    · intro x hx
      have hx2 := List.mem_of_mem_take hx
      have hx3 := (List.perm_insertionSort _ _).mem_iff.mp hx2
      obtain ⟨g, hg, hf⟩ := List.mem_filterMap.mp hx3
      rcases hrep : pickRepresentative g.2 with _ | rep <;> rw [hrep] at hf
      · cases hf
      · dsimp only at hf
        by_cases hsig : isSignal (toTopItem rep).category (toTopItem rep).importance
            minG = true
        · rw [if_pos hsig] at hf
          cases hf
          exact isSignal_spec _ _ _ hsig
        · rw [if_neg hsig] at hf
          cases hf
    · exact sorted_take top_n (List.sorted_insertionSort _ _)

theorem global_top_n_postcondition_witness :
    0 < 2 ∧ (buildTopClusters [] [] 2 4).length ≤ 2 :=
  ⟨by decide, (global_top_n_postcondition [] [] 2 4 (by decide)).1⟩

/-! ## Claim C9 -/

/-- Claim C9: for each active source, the per-source section contains only
that source's items that pass the signal filter (category ≠ NOISE and
importance at or above the per-channel threshold), ranked by importance
descending then posted_at descending, truncated to K; `posts_count` is the
number shown, `total_posts` the source's total, and `hidden_posts` equals
the number of the source's items filtered out of the section (those dropped
by the signal filter together with those beyond the top-K cut):
`total_posts - posts_count`. -/
theorem per_channel_top_k (channels : List Channel)
    (postsBy : Int → List DigestPostItem) (K : Nat) (minImp : Int) :
    ∀ sec ∈ buildPerChannel channels postsBy K minImp,
      sec.posts.length ≤ K ∧
      sec.posts_count = sec.posts.length ∧
      (∀ p ∈ sec.posts, p ∈ postsBy sec.channel_id ∧
        isSignal p.category p.importance minImp = true) ∧
      List.Sorted postRankGe sec.posts ∧
      sec.total_posts = (postsBy sec.channel_id).length ∧
      sec.hidden_posts = (sec.total_posts : Int) - (sec.posts_count : Int) := by
  intro sec hsec
  unfold buildPerChannel at hsec
  obtain ⟨channel, hch, rfl⟩ := List.mem_map.mp hsec
  dsimp only
  have hlenshown : (((postsBy channel.id).filter
        (fun post => isSignal post.category post.importance minImp)
      |> List.insertionSort postRankGe).take K).length ≤ (postsBy channel.id).length := by
    calc (((postsBy channel.id).filter
          (fun post => isSignal post.category post.importance minImp)
        |> List.insertionSort postRankGe).take K).length
        ≤ ((postsBy channel.id).filter
            (fun post => isSignal post.category post.importance minImp)
          |> List.insertionSort postRankGe).length := by
          rw [List.length_take]
          exact min_le_right _ _
      _ = ((postsBy channel.id).filter
            (fun post => isSignal post.category post.importance minImp)).length :=
        List.length_insertionSort _ _
      _ ≤ (postsBy channel.id).length := List.length_filter_le _ _
  refine ⟨List.length_take_le _ _, rfl, ?_, ?_, rfl, ?_⟩
  · intro p hp
    have hp2 := List.mem_of_mem_take hp
    have hp3 := (List.perm_insertionSort _ _).mem_iff.mp hp2
    have hp4 := List.mem_filter.mp hp3
    exact ⟨hp4.1, hp4.2⟩
  · exact sorted_take K (List.sorted_insertionSort _ _)
  · rw [max_eq_right]
    omega

theorem per_channel_top_k_witness :
    (⟨1, "c-name", 0, 0, 0, []⟩ : DigestChannelSection) ∈
        buildPerChannel [⟨1, "c-name", none⟩] (fun _ => []) 3 4 ∧
    (⟨1, "c-name", 0, 0, 0, []⟩ : DigestChannelSection).posts.length ≤ 3 :=
  ⟨by decide,
    (per_channel_top_k [⟨1, "c-name", none⟩] (fun _ => []) 3 4 _ (by decide)).1⟩

/-! ## Claim C10 -/

/-- Coalescing a record whose summary fields are all null yields exactly
the documented defaults. -/
theorem coalesceSummary_none (category text : Option String) :
    coalesceSummary none none none category text =
      { key_point := truncateS (if normalize_text (text.getD "") = ""
          then "Пост без текста" else normalize_text (text.getD "")) 120
        why_it_matters := whyFallbackBuild
        importance := 2
        category := normalizeCategoryBuild category } := by
  unfold coalesceSummary
  dsimp only
  have hps : pyStrip ((none : Option String).getD "") = "" := rfl
  rw [hps]
  rw [if_pos rfl, if_pos rfl]
  simp only [Option.getD_none]
  norm_num

/-- Claim C10: a post with no stored summary is not excluded from digest
building. For a record whose summary fields are all missing (and whose
category is missing or unknown), `_to_post_item` coalesces the defaults —
importance 2, category OTHER_USEFUL, the key point truncated from the
post's normalized text (or the fixed placeholder when that is empty), and
the fixed fallback why-it-matters — and the resulting item still enters the
ranking input (`all_posts`) and its channel's per-source list, counting
toward the per-source totals. -/
theorem unsummarized_post_defaults (records : List DigestPostRecord)
    (rec : DigestPostRecord) (hmem : rec ∈ records)
    (hkp : rec.key_point = none) (hwhy : rec.why_it_matters = none)
    (himp : rec.importance = none)
    (hcat : rec.category = none ∨ ∀ s, rec.category = some s →
      String.mk ((pyStripL s.data).map pyUpperChar) ∉ allowedCategories) :
    (toPostItem rec).importance = 2 ∧
    (toPostItem rec).category = "OTHER_USEFUL" ∧
    (toPostItem rec).why_it_matters = whyFallbackBuild ∧
    (toPostItem rec).key_point =
      truncateS (if normalize_text (rec.text.getD "") = "" then "Пост без текста"
        else normalize_text (rec.text.getD "")) 120 ∧
    toPostItem rec ∈ digestAllPosts records ∧
    toPostItem rec ∈ digestPostsByChannel records rec.channel_id := by
  have hco : coalesceSummary rec.key_point rec.why_it_matters rec.importance
      rec.category rec.text =
      { key_point := truncateS (if normalize_text (rec.text.getD "") = ""
          then "Пост без текста" else normalize_text (rec.text.getD "")) 120
        why_it_matters := whyFallbackBuild
        importance := 2
        category := normalizeCategoryBuild rec.category } := by
    rw [hkp, hwhy, himp]
    exact coalesceSummary_none rec.category rec.text
  refine ⟨?_, ?_, ?_, ?_, ?_, ?_⟩
  · show (coalesceSummary rec.key_point rec.why_it_matters rec.importance
      rec.category rec.text).importance = 2
    rw [hco]
  · show (coalesceSummary rec.key_point rec.why_it_matters rec.importance
      rec.category rec.text).category = "OTHER_USEFUL"
    rw [hco]
    show normalizeCategoryBuild rec.category = "OTHER_USEFUL"
    rcases hc : rec.category with _ | s
    · decide
    · rcases hcat with hnone | hunk
      · rw [hc] at hnone
        cases hnone
      · unfold normalizeCategoryBuild
        dsimp only
        simp only [Option.getD_some]
        rw [if_neg (hunk s hc)]
  · show (coalesceSummary rec.key_point rec.why_it_matters rec.importance
      rec.category rec.text).why_it_matters = whyFallbackBuild
    rw [hco]
  · show (coalesceSummary rec.key_point rec.why_it_matters rec.importance
      rec.category rec.text).key_point =
      truncateS (if normalize_text (rec.text.getD "") = "" then "Пост без текста"
        else normalize_text (rec.text.getD "")) 120
    rw [hco]
  · exact List.mem_map_of_mem toPostItem hmem
  · unfold digestPostsByChannel
    exact List.mem_map_of_mem toPostItem
      (List.mem_filter.mpr ⟨hmem, by simp⟩)

/-- A stored digest record with no summary row (all summary columns null),
used by the concrete witness. -/
def sampleRecordNoSummary : DigestPostRecord :=
  { post_id := 7
    channel_id := 1
    channel_title := "Chan"
    channel_username := some "chan"
    posted_at := 100
    text := some "Новости  ИИ сегодня"
    permalink := none
    content_hash := "hh"
    key_point := none
    why_it_matters := none
    tags := none
    importance := none
    category := none }

theorem unsummarized_post_defaults_witness :
    sampleRecordNoSummary.key_point = none ∧
    (toPostItem sampleRecordNoSummary).importance = 2 :=
  ⟨rfl, (unsummarized_post_defaults [sampleRecordNoSummary] sampleRecordNoSummary
    (List.mem_singleton.mpr rfl) rfl rfl rfl (Or.inl rfl)).1⟩

/-! ## Enrichment Coordinator: summary normalization
(`src/aidigest/nlp/summarize.py`, `src/aidigest/nlp/prompts.py`) -/

/-- `CATEGORIES` from `prompts.py`. -/
def CATEGORIES : List String :=
  ["LLM_RELEASE", "PRACTICE_INSIGHT", "ANALYSIS_OPINION", "DEALS", "OTHER_USEFUL", "NOISE"]

/-- `ALLOWED_TAGS` from `prompts.py`. -/
def ALLOWED_TAGS : List String :=
  ["News", "Research", "Tools", "Product", "Opinion", "Safety", "Policy", "Business"]

/-- `_CATEGORY_IMPORTANCE_RANGES`. The wildcard arm carries the NOISE band:
after `_normalize_category` the category is always one of the six keys, and
the only key not matched literally above is NOISE. -/
def categoryImportanceRange : String → Int × Int
  | "LLM_RELEASE" => (5, 5)
  | "PRACTICE_INSIGHT" => (4, 4)
  | "ANALYSIS_OPINION" => (4, 4)
  | "DEALS" => (3, 4)
  | "OTHER_USEFUL" => (3, 3)
  | _ => (1, 2)

/-- `_WHY_FALLBACK_BY_CATEGORY`. As above, the wildcard arm is the NOISE
sentence. -/
def whyFallbackByCategory : String → String
  | "LLM_RELEASE" =>
    "Откройте пост, чтобы сразу понять, что нового в модели и как это повлияет на ваши задачи."
  | "PRACTICE_INSIGHT" =>
    "Откройте пост, чтобы взять практический прием и применить его в работе уже сегодня."
  | "ANALYSIS_OPINION" =>
    "Откройте пост, чтобы быстро оценить аргументы и риски перед принятием решения."
  | "DEALS" =>
    "Откройте пост, чтобы проверить условия предложения и понять, есть ли реальная выгода."
  | "OTHER_USEFUL" =>
    "Откройте пост, чтобы быстро понять, есть ли здесь практическая польза для ваших задач."
  | _ =>
    "Откройте пост только если вам нужен контекст сообщества, практической пользы здесь обычно мало."

def NOISE_KEYWORDS : List String :=
  ["реклама", "sponsored", "advert", "промокод", "скидк", "giveaway", "розыгрыш",
    "конкурс", "лотерея", "игра", "game", "квиз", "quiz", "мем", "meme"]

def AI_KEYWORDS : List String :=
  ["ai", "llm", "gpt", "нейросет", "ии", "machine learning", "ml", "rag", "diffusion",
    "openai", "anthropic", "gemini", "mistral", "llama", "yandexgpt"]

def NON_AI_TOPIC_KEYWORDS : List String :=
  ["футбол", "матч", "чемпионат", "кино", "сериал", "музыка", "кулинар", "гороскоп",
    "погода", "политика", "недвижим", "автомобил"]

/-- Substring containment on character lists (Python's `in` on `str`). -/
def isInfixOfB (needle : List Char) : List Char → Bool
  | [] => needle.isEmpty
  | c :: rest => needle.isPrefixOf (c :: rest) || isInfixOfB needle rest

/-- `_contains_any`: substring search of any keyword in the lowercased
text. -/
def containsAny (hay : List Char) (keys : List String) : Bool :=
  keys.any (fun k => isInfixOfB k.data (lowerL hay))

/-- `SummarySnapshot` from `repo_dedup.py`. -/
structure SummarySnapshot where
  key_point : String
  why_it_matters : String
  tags : List String
  importance : Int
  category : String
deriving DecidableEq, Repr

/-- The structured JSON payload returned by the summarization service
(`payload.get(...)` fields; a missing or non-coercible field is `none`). -/
structure LlmPayload where
  key_point : Option String
  why_it_matters : Option String
  tags : Option (List String)
  category : Option String
  importance : Option Int
deriving DecidableEq, Repr

/-- `_normalize_category` from `summarize.py`: strip, case-insensitive
lookup in the closed set, `OTHER_USEFUL` otherwise. -/
def normalizeCategorySumm (value : Option String) : String :=
  let raw := pyStrip (value.getD "")
  match CATEGORIES.find? (fun c => lowerL c.data == lowerL raw.data) with
  | some c => c
  | none => "OTHER_USEFUL"

/-- `_normalize_importance`: clamp the externally returned value into the
category's fixed band; a missing value maps to the band's low end. -/
def normalizeImportance (category : String) (raw_importance : Option Int) : Int :=
  let r := categoryImportanceRange category
  match raw_importance with
  | none => r.1
  | some v => max r.1 (min r.2 v)

/-- `_normalize_text_for_overlap`: lowercase, replace every character that
is neither a word character nor whitespace by a space, collapse whitespace
runs, strip. -/
def normalizeTextForOverlap (t : String) : List Char :=
  let lowered := lowerL t.data
  let replaced := lowered.map (fun c => if !isWordChar c && !isPyWs c then ' ' else c)
  pyStripL (squeezeSpaces (replaced.map (fun c => if isPyWs c then ' ' else c)))

/-- The 6-gram scan of `_has_long_fragment_overlap`: every window of six
consecutive tokens, joined by single spaces, is searched in the normalized
source. -/
def sixGramScan (sn : List Char) : List (List Char) → Bool
  | [] => false
  | t :: rest =>
    if (t :: rest).length < 6 then false
    else isInfixOfB (List.intercalate [' '] ((t :: rest).take 6)) sn
      || sixGramScan sn rest

/-- `_has_long_fragment_overlap` from `summarize.py`. -/
def hasLongFragmentOverlap (candidate source : String) : Bool :=
  let cn := normalizeTextForOverlap candidate
  let sn := normalizeTextForOverlap source
  if cn.isEmpty || sn.isEmpty then false
  else if 40 ≤ cn.length && isInfixOfB cn sn then true
  else
    let tokens := splitOnChar ' ' cn
    if tokens.length < 6 then false
    else sixGramScan sn tokens

/-- The quote characters of `_QUOTED_BLOCK_RE` / `_QUOTE_CHARS_RE`. -/
def quoteChars : List Char :=
  ['"', Char.ofNat 8220, Char.ofNat 8221, Char.ofNat 171, Char.ofNat 187,
    Char.ofNat 39, Char.ofNat 96]

def isQuoteChar (c : Char) : Bool := quoteChars.contains c

/-- Detection of an `https?://\S+` match starting at the head of the
list. The scheme and the `\S+` tail form one maximal run of non-whitespace
characters, so removing the match is the same as dropping characters until
the next whitespace. -/
def urlStartsAt (l : List Char) : Bool :=
  (("https://".data).isPrefixOf l &&
    (match l.drop 8 with
     | [] => false
     | d :: _ => !isPyWs d)) ||
  (("http://".data).isPrefixOf l &&
    (match l.drop 7 with
     | [] => false
     | d :: _ => !isPyWs d))

/-- Scanner for `_URL_RE.sub("", text)`: the flag records that we are
inside a match and still dropping its non-whitespace characters. -/
def stripUrlsAux : Bool → List Char → List Char
  | _, [] => []
  | true, c :: rest =>
    if isPyWs c then c :: stripUrlsAux false rest
    else stripUrlsAux true rest
  | false, c :: rest =>
    if urlStartsAt (c :: rest) then stripUrlsAux true rest
    else c :: stripUrlsAux false rest

/-- `_URL_RE.sub("", text)`: remove every `https?://\S+` occurrence. -/
def stripUrls (l : List Char) : List Char :=
  stripUrlsAux false l

/-- Scanner for `_QUOTED_BLOCK_RE.sub("", text)`: the flag records that we
are inside a matched quoted block and dropping characters up to and
including its closing quote. -/
def stripQuotedAux : Bool → List Char → List Char
  | _, [] => []
  | true, c :: rest =>
    if isQuoteChar c then stripQuotedAux false rest
    else stripQuotedAux true rest
  | false, c :: rest =>
    if isQuoteChar c &&
        (2 ≤ (rest.takeWhile (fun d => !isQuoteChar d)).length &&
          (rest.takeWhile (fun d => !isQuoteChar d)).length ≤ 160 &&
          (rest.takeWhile (fun d => !isQuoteChar d)).length < rest.length) then
      stripQuotedAux true rest
    else c :: stripQuotedAux false rest

/-- `_QUOTED_BLOCK_RE.sub("", text)`: remove every quoted block of 2..160
non-quote characters between two quote characters, scanning left to right
without overlap (a match exists exactly when the maximal non-quote run
after an opening quote has length 2..160 and a closing quote follows). -/
def stripQuotedBlocks (l : List Char) : List Char :=
  stripQuotedAux false l

/-- `_sanitize_why_text` from `summarize.py`. -/
def sanitizeWhyText (text : String) : String :=
  let noUrl := stripUrls text.data
  let noQuoted := stripQuotedBlocks noUrl
  let noQuotes := noQuoted.filter (fun c => !isQuoteChar c)
  let collapsed := pyStripL (squeezeSpaces
    (noQuotes.map (fun c => if isPyWs c then ' ' else c)))
  String.mk (pyStripL (collapsed.take 200))

def sentencePunct : List Char := ['.', '!', '?', Char.ofNat 8230]

/-- Scanner for `_SENTENCE_RE`: the first (lazy) prefix ending in a
sentence punctuation character that is followed by whitespace or the end of
the text. -/
def firstSentenceAux (acc : List Char) : List Char → Option (List Char)
  | [] => none
  | c :: rest =>
    if sentencePunct.contains c &&
        (match rest with | [] => true | d :: _ => isPyWs d) then
      some ((c :: acc).reverse)
    else firstSentenceAux (c :: acc) rest

/-- `_to_single_sentence` from `summarize.py`. -/
def toSingleSentence (text : String) : String :=
  if text = "" then ""
  else
    let sentence :=
      match firstSentenceAux [] text.data with
      | some g => g
      | none => text.data
    let s1 := pyStripL sentence
    let s2 := pyStripL (s1.rdropWhile (fun c => sentencePunct.contains c || c = ' '))
    if s2.isEmpty then "" else String.mk (s2 ++ ['.'])

/-- `_normalize_why_it_matters` from `summarize.py`. -/
def normalizeWhyItMatters (raw_why : Option String) (category : String)
    (post_text : String) : String :=
  let cleaned := sanitizeWhyText (raw_why.getD "")
  let sentence := toSingleSentence cleaned
  if sentence = "" then whyFallbackByCategory category
  else if hasLongFragmentOverlap sentence post_text then whyFallbackByCategory category
  else sentence

/-- `_looks_like_noise` from `summarize.py`. -/
def looksLikeNoise (post_text key_point : String) : Bool :=
  let combined := lowerL (pyStripL (key_point.data ++ '\n' :: post_text.data))
  if combined.isEmpty then false
  else if containsAny combined NOISE_KEYWORDS then true
  else if containsAny combined NON_AI_TOPIC_KEYWORDS
      && !containsAny combined AI_KEYWORDS then true
  else false

/-- The tag normalization loop of `_normalize_summary_payload`: map each
raw tag through the allowed-tag table (case-insensitively), dropping
unknown tags and duplicates. -/
def collectTags (raw : List String) : List String :=
  raw.foldl (fun acc item =>
    match ALLOWED_TAGS.find? (fun t => lowerL t.data == lowerL (pyStripL item.data)) with
    | some t => if t ∈ acc then acc else acc ++ [t]
    | none => acc) []

instance exceptDecEq {e a : Type} [DecidableEq e] [DecidableEq a] :
    DecidableEq (Except e a) := fun x y =>
  match x, y with
  | .ok v, .ok w =>
    if h : v = w then isTrue (by rw [h]) else isFalse (by intro hc; cases hc; exact h rfl)
  | .error v, .error w =>
    if h : v = w then isTrue (by rw [h]) else isFalse (by intro hc; cases hc; exact h rfl)
  | .ok _, .error _ => isFalse (by intro hc; cases hc)
  | .error _, .ok _ => isFalse (by intro hc; cases hc)

/-- `_normalize_summary_payload` from `summarize.py`. -/
def normalizeSummaryPayload (payload : LlmPayload) (post_text : String) :
    Except String SummarySnapshot :=
  let kp0 := pyStrip (payload.key_point.getD "")
  if kp0 = "" then Except.error "LLM response is missing key_point"
  else
    let key_point := pyStrip (String.mk (kp0.data.take 160))
    let tags0 := collectTags (payload.tags.getD [])
    let tags := if tags0.isEmpty then ["News"] else tags0
    let category0 := normalizeCategorySumm payload.category
    let category := if looksLikeNoise post_text key_point then "NOISE" else category0
    let importance := normalizeImportance category payload.importance
    let why_it_matters := normalizeWhyItMatters payload.why_it_matters category post_text
    Except.ok
      { key_point := key_point
        why_it_matters := why_it_matters
        tags := tags
        importance := importance
        category := category }

/-! ### Facts about summary normalization -/

theorem normalizeCategorySumm_mem (value : Option String) :
    normalizeCategorySumm value ∈ CATEGORIES := by
  unfold normalizeCategorySumm
  dsimp only
  split
  · rename_i c heq
    exact List.mem_of_find?_eq_some heq
  · decide

theorem range_lohi (c : String) :
    (categoryImportanceRange c).1 ≤ (categoryImportanceRange c).2 := by
  unfold categoryImportanceRange
  split <;> norm_num

theorem normalizeImportance_mem (c : String) (raw : Option Int) :
    (categoryImportanceRange c).1 ≤ normalizeImportance c raw ∧
    normalizeImportance c raw ≤ (categoryImportanceRange c).2 := by
  unfold normalizeImportance
  rcases raw with _ | v
  · exact ⟨le_refl _, range_lohi c⟩
  · dsimp only
    exact ⟨le_max_left _ _, max_le (range_lohi c) (min_le_left _ _)⟩

theorem normalizeWhy_cases (raw : Option String) (c : String) (pt : String) :
    (toSingleSentence (sanitizeWhyText (raw.getD "")) = "" →
      normalizeWhyItMatters raw c pt = whyFallbackByCategory c) ∧
    (hasLongFragmentOverlap (toSingleSentence (sanitizeWhyText (raw.getD ""))) pt
        = true →
      normalizeWhyItMatters raw c pt = whyFallbackByCategory c) ∧
    (normalizeWhyItMatters raw c pt = whyFallbackByCategory c ∨
      normalizeWhyItMatters raw c pt
        = toSingleSentence (sanitizeWhyText (raw.getD ""))) := by
  unfold normalizeWhyItMatters
  dsimp only
  by_cases h1 : toSingleSentence (sanitizeWhyText (raw.getD "")) = ""
  · rw [if_pos h1]
    exact ⟨fun _ => rfl, fun _ => rfl, Or.inl rfl⟩
  · rw [if_neg h1]
    by_cases h2 : hasLongFragmentOverlap
        (toSingleSentence (sanitizeWhyText (raw.getD ""))) pt = true
    · rw [if_pos h2]
      exact ⟨fun hc => absurd hc h1, fun _ => rfl, Or.inl rfl⟩
    · rw [if_neg h2]
      exact ⟨fun hc => absurd hc h1, fun hc => absurd hc h2, Or.inr rfl⟩

/-! ## Claim C8 -/

/-- An external summarizer payload whose why-it-matters is two sentences
(with no six-word overlap with the post text). -/
def cexPayload : LlmPayload :=
  { key_point := some "Новая функция в инструменте"
    why_it_matters := some "Это ускорит работу. Вторая фраза тут."
    tags := none
    category := none
    importance := none }

/-- The snapshot the source produces for `cexPayload`: the multi-sentence
why-it-matters is truncated to its first sentence, not replaced by the
category fallback. -/
def cexSnapshot : SummarySnapshot :=
  { key_point := "Новая функция в инструменте"
    why_it_matters := "Это ускорит работу."
    tags := ["News"]
    importance := 3
    category := "OTHER_USEFUL" }

/-- Claim C8 (counterexample): the claim says a multi-sentence raw
why-it-matters is replaced by the category-specific fallback sentence; the
code instead truncates it to its first sentence. `cexPayload`'s raw value
is not a single sentence (the single-sentence reduction changes it), yet
the produced why-it-matters is that first sentence, not the fallback. -/
theorem summary_normalization_cex :
    normalizeSummaryPayload cexPayload "исходный пост про другое"
      = Except.ok cexSnapshot ∧
    toSingleSentence (sanitizeWhyText (cexPayload.why_it_matters.getD ""))
      ≠ sanitizeWhyText (cexPayload.why_it_matters.getD "") ∧
    cexSnapshot.why_it_matters ≠ whyFallbackByCategory cexSnapshot.category := by
  refine ⟨by decide, by decide, by decide⟩

/-- Claim C8 (amended): every summary successfully produced from an
external payload has a category drawn from the closed category set (unknown
values map to OTHER_USEFUL, with the heuristic noise override possibly
forcing NOISE), an importance clamped into that category's fixed
`[low, high]` band, and a why-it-matters that is replaced by the
category-specific fallback sentence whenever the sanitized raw value
reduces to an empty single sentence or shares a verbatim run of six or more
words with the source text; otherwise it is the raw value reduced to its
first sentence (a multi-sentence value is truncated, not replaced). -/
theorem summary_normalization_amended (payload : LlmPayload) (post_text : String)
    (s : SummarySnapshot)
    (h : normalizeSummaryPayload payload post_text = Except.ok s) :
    s.category ∈ CATEGORIES ∧
    ((categoryImportanceRange s.category).1 ≤ s.importance ∧
      s.importance ≤ (categoryImportanceRange s.category).2) ∧
    (toSingleSentence (sanitizeWhyText (payload.why_it_matters.getD "")) = "" →
      s.why_it_matters = whyFallbackByCategory s.category) ∧
    (hasLongFragmentOverlap
        (toSingleSentence (sanitizeWhyText (payload.why_it_matters.getD "")))
        post_text = true →
      s.why_it_matters = whyFallbackByCategory s.category) ∧
    (s.why_it_matters = whyFallbackByCategory s.category ∨
      s.why_it_matters
        = toSingleSentence (sanitizeWhyText (payload.why_it_matters.getD ""))) := by
  unfold normalizeSummaryPayload at h
  by_cases hkp : pyStrip (payload.key_point.getD "") = ""
  · rw [if_pos hkp] at h
    cases h
  · rw [if_neg hkp] at h
    dsimp only at h
    cases h
    dsimp only
    refine ⟨?_, normalizeImportance_mem _ payload.importance, ?_, ?_, ?_⟩
    · by_cases hn : looksLikeNoise post_text
          (pyStrip (String.mk ((pyStrip (payload.key_point.getD "")).data.take 160)))
          = true
      · rw [if_pos hn]
        decide
      · rw [if_neg hn]
        exact normalizeCategorySumm_mem payload.category
    · exact (normalizeWhy_cases payload.why_it_matters _ post_text).1
    · exact (normalizeWhy_cases payload.why_it_matters _ post_text).2.1
    · exact (normalizeWhy_cases payload.why_it_matters _ post_text).2.2

theorem summary_normalization_amended_witness :
    normalizeSummaryPayload cexPayload "исходный пост про другое"
      = Except.ok cexSnapshot ∧
    cexSnapshot.category ∈ CATEGORIES :=
  ⟨by decide, (summary_normalization_amended cexPayload "исходный пост про другое"
    cexSnapshot (by decide)).1⟩

/-! ## Pipeline Orchestrator (`src/aidigest/scheduler/jobs.py`)

The pipeline-visible database carries the `windows` and `digests` tables
explicitly; the remaining tables (posts, summaries, embeddings, clusters)
are abstracted into an opaque `Store`, acted on by the stage bodies
(ingest, summarize, embed, dedup and the digest renderer), which in the
source read and write only those tables. The delivery transport
(`DigestPublisher.send_html_messages`) is the `send` oracle. Wall-clock
durations are abstracted away; `now` stands for `datetime.now(utc)`. -/

structure WindowRow where
  id : Int
  start_at : Int
  end_at : Int
  status : String
deriving DecidableEq, Repr

structure DigestRow where
  window_id : Int
  channel_id : Int
  message_ids : List Int
  content : String
  published_at : Option Int
deriving DecidableEq, Repr

structure Db (Store : Type) where
  windows : List WindowRow
  digests : List DigestRow
  store : Store
deriving DecidableEq, Repr

def findWindow {Store : Type} (db : Db Store) (s e : Int) : Option WindowRow :=
  db.windows.find? (fun w => decide (w.start_at = s ∧ w.end_at = e))

def maxWindowId (ws : List WindowRow) : Int :=
  ws.foldl (fun m w => max m w.id) 0

/-- `get_or_create_window` from `repo_dedup_clusters.py`: conflict-tolerant
insert on the unique `(start_at, end_at)` pair, then select. Fresh ids
model the identity column. -/
def db_get_or_create_window {Store : Type} (db : Db Store) (s e : Int) :
    Db Store × WindowRow :=
  match findWindow db s e with
  | some w => (db, w)
  | none =>
    ({ db with windows :=
        db.windows ++ [⟨maxWindowId db.windows + 1, s, e, "new"⟩] },
      ⟨maxWindowId db.windows + 1, s, e, "new"⟩)

/-- `set_window_status`: a plain, unconditional status write. -/
def db_set_window_status {Store : Type} (db : Db Store) (window_id : Int)
    (status : String) : Db Store :=
  { db with
    windows := db.windows.map fun w =>
      if w.id = window_id then { w with status := status } else w }

/-- `get_digest_by_window` from `repo_digests.py`. -/
def db_get_digest_by_window {Store : Type} (db : Db Store) (window_id : Int) :
    Option DigestRow :=
  db.digests.find? (fun d => decide (d.window_id = window_id))

/-- `upsert_digest` from `repo_digests.py` (`stats` JSON omitted). -/
def db_upsert_digest {Store : Type} (db : Db Store) (window_id channel_id : Int)
    (message_ids : List Int) (content : String) (published_at : Option Int) :
    Db Store :=
  if db.digests.any (fun d => decide (d.window_id = window_id)) then
    { db with
      digests := db.digests.map fun d =>
        if d.window_id = window_id then
          ⟨window_id, channel_id, message_ids, content, published_at⟩
        else d }
  else
    { db with digests :=
        db.digests ++ [⟨window_id, channel_id, message_ids, content, published_at⟩] }

/-- The status of a window as persisted. -/
def window_status {Store : Type} (db : Db Store) (window_id : Int) : Option String :=
  (db.windows.find? (fun w => decide (w.id = window_id))).map WindowRow.status

/-- `IngestSummary` (counts only; durations abstracted). -/
structure IngestSummary where
  channels_processed : Int
  posts_fetched : Int
  posts_inserted : Int
  posts_updated : Int
deriving DecidableEq, Repr

structure SummarizeStatsR where
  total_candidates : Int
  skipped_existing : Int
  copied_exact_dup : Int
  summarized : Int
  errors : Int
deriving DecidableEq, Repr

structure EmbedStats where
  total_candidates : Int
  embedded : Int
  failed_batches : Int
  failed_posts : Int
deriving DecidableEq, Repr

structure DedupStats where
  clusters_created : Int
  posts_assigned : Int
  posts_skipped_no_embedding : Int
  largest_cluster_size : Int
deriving DecidableEq, Repr

/-- `PipelineStats` from `scheduler/jobs.py` (durations abstracted). -/
structure PipelineStats where
  ingest : Option IngestSummary := none
  summarize : Option SummarizeStatsR := none
  embed : Option EmbedStats := none
  dedup : Option DedupStats := none
  messages_sent : Int := 0
  failed : Bool := false
  error : Option String := none
deriving DecidableEq, Repr

/-- The effectful stage bodies and external transports, as oracles over the
abstract store. -/
structure StageOracles (Store : Type) where
  ingest : Store → Except String (Store × IngestSummary)
  summarize : Store → Except String (Store × SummarizeStatsR)
  embed : Store → Except String (Store × EmbedStats)
  dedup : Store → Except String (Store × DedupStats)
  render : Store → Except String (List String)
  send : List String → Except String (List Int)

/-- The sending tail of `publish_window`: build+render the digest, fail on
an empty rendering, send, and upsert the digest row with a non-null
`published_at`. -/
def publishSend {Store : Type} (o : StageOracles Store) (now chat_id window_id : Int)
    (db : Db Store) : Except String (Db Store × Int) :=
  match o.render db.store with
  | .error m => .error m
  | .ok messages =>
    if messages.isEmpty then .error "digest rendering produced no messages"
    else
      match o.send messages with
      | .error m => .error m
      | .ok message_ids =>
        .ok (db_upsert_digest db window_id chat_id message_ids
            (String.intercalate "\n\n----- MESSAGE BREAK -----\n\n" messages)
            (some now),
          message_ids.length)

/-- `publish_window` from `scheduler/jobs.py`: skip (returning zero sent
messages and an untouched database) when the window's digest is already
published, otherwise render, send and upsert. -/
def publish_window {Store : Type} (o : StageOracles Store) (now chat_id window_id : Int)
    (db : Db Store) : Except String (Db Store × Int) :=
  match db_get_digest_by_window db window_id with
  | some existing =>
    if existing.published_at.isSome then .ok (db, 0)
    else publishSend o now chat_id window_id db
  | none => publishSend o now chat_id window_id db

/-- A pipeline stage: transforms the database and accumulates statistics,
or raises. -/
def Stage (Store : Type) : Type :=
  Db Store → PipelineStats → Except String (Db Store × PipelineStats)

/-- The stage sequencing of `run_daily_pipeline`: run each stage, persist
its status label on success; on the first error set the window `failed`
and return the statistics accumulated so far with the failure flag and the
error message — later stages are not attempted. -/
def runStages {Store : Type} (window_id : Int) :
    List (String × Stage Store) → Db Store → PipelineStats → Db Store × PipelineStats
  | [], db, st => (db, st)
  | (statusAfter, f) :: rest, db, st =>
    match f db st with
    | .ok (db2, st2) =>
      runStages window_id rest (db_set_window_status db2 window_id statusAfter) st2
    | .error msg =>
      (db_set_window_status db window_id "failed",
        { st with failed := true, error := some msg })

def ingestStage {Store : Type} (o : StageOracles Store) : Stage Store := fun db st =>
  match o.ingest db.store with
  | .error m => .error m
  | .ok (s2, r) => .ok ({ db with store := s2 }, { st with ingest := some r })

def summarizeStage {Store : Type} (o : StageOracles Store) : Stage Store := fun db st =>
  match o.summarize db.store with
  | .error m => .error m
  | .ok (s2, r) => .ok ({ db with store := s2 }, { st with summarize := some r })

def embedStage {Store : Type} (o : StageOracles Store) : Stage Store := fun db st =>
  match o.embed db.store with
  | .error m => .error m
  | .ok (s2, r) => .ok ({ db with store := s2 }, { st with embed := some r })

def dedupStage {Store : Type} (o : StageOracles Store) : Stage Store := fun db st =>
  match o.dedup db.store with
  | .error m => .error m
  | .ok (s2, r) => .ok ({ db with store := s2 }, { st with dedup := some r })

def publishStage {Store : Type} (o : StageOracles Store) (now chat_id window_id : Int) :
    Stage Store := fun db st =>
  match publish_window o now chat_id window_id db with
  | .error m => .error m
  | .ok (db2, n) => .ok (db2, { st with messages_sent := n })

/-- The stage list of `run_daily_pipeline` with the status each stage
persists on success. -/
def dailyStages {Store : Type} (o : StageOracles Store) (now chat_id window_id : Int) :
    List (String × Stage Store) :=
  [("ingested", ingestStage o),
    ("summarized", summarizeStage o),
    ("embedded", embedStage o),
    ("deduped", dedupStage o),
    ("published", publishStage o now chat_id window_id)]

/-- `run_daily_pipeline` from `scheduler/jobs.py`: resolve/create the
window; if its digest already exists with a non-null `published_at`, mark
the window `published` and return fresh statistics (the idempotency
short-circuit); otherwise run the five stages in order. -/
def run_daily_pipeline {Store : Type} (o : StageOracles Store)
    (now chat_id s e : Int) (db : Db Store) : Db Store × PipelineStats :=
  match db_get_or_create_window db s e with
  | (db0, w) =>
    match db_get_digest_by_window db0 w.id with
    | some existing =>
      if existing.published_at.isSome then
        (db_set_window_status db0 w.id "published", {})
      else runStages w.id (dailyStages o now chat_id w.id) db0 {}
    | none => runStages w.id (dailyStages o now chat_id w.id) db0 {}

/-! ### Pipeline invariants -/

theorem findStatus_set (ws : List WindowRow) (wid : Int) (status : String)
    (h : wid ∈ ws.map WindowRow.id) :
    ((ws.map fun w => if w.id = wid then { w with status := status } else w).find?
        (fun w => decide (w.id = wid))).map WindowRow.status = some status := by
  induction ws with
  | nil => simp at h
  | cons w ws ih =>
    simp only [List.map_cons]
    by_cases hw : w.id = wid
    · rw [if_pos hw]
      rw [List.find?_cons_of_pos _ (by simpa using hw)]
      rfl
    · rw [if_neg hw]
      rw [List.find?_cons_of_neg _ (by simpa using hw)]
      apply ih
      rcases List.mem_cons.mp (by simpa using h : wid ∈ w.id :: ws.map WindowRow.id)
        with heq | hmem
      · exact absurd heq.symm hw
      · exact hmem

theorem window_status_set {Store : Type} (db : Db Store) (wid : Int) (status : String)
    (h : wid ∈ db.windows.map WindowRow.id) :
    window_status (db_set_window_status db wid status) wid = some status := by
  unfold window_status db_set_window_status
  exact findStatus_set db.windows wid status h

theorem set_window_status_digests {Store : Type} (db : Db Store) (wid : Int)
    (status : String) :
    (db_set_window_status db wid status).digests = db.digests := rfl

theorem set_window_status_ids {Store : Type} (db : Db Store) (wid : Int)
    (status : String) :
    (db_set_window_status db wid status).windows.map WindowRow.id
      = db.windows.map WindowRow.id := by
  unfold db_set_window_status
  dsimp only
  rw [List.map_map]
  apply List.map_congr_left
  intro w _
  simp only [Function.comp_apply]
  by_cases hw : w.id = wid
  · rw [if_pos hw]
  · rw [if_neg hw]

theorem get_or_create_digests {Store : Type} (db : Db Store) (s e : Int) :
    (db_get_or_create_window db s e).1.digests = db.digests := by
  unfold db_get_or_create_window
  rcases h : findWindow db s e with _ | w <;> rfl

theorem get_or_create_mem {Store : Type} (db : Db Store) (s e : Int)
    (db0 : Db Store) (w : WindowRow) (h : db_get_or_create_window db s e = (db0, w)) :
    w.id ∈ db0.windows.map WindowRow.id := by
  unfold db_get_or_create_window at h
  rcases hf : findWindow db s e with _ | w2 <;> rw [hf] at h <;> cases h
  · simp
  · exact List.mem_map_of_mem _ (List.mem_of_find?_eq_some hf)

theorem upsert_digest_windows {Store : Type} (db : Db Store)
    (window_id channel_id : Int) (message_ids : List Int) (content : String)
    (published_at : Option Int) :
    (db_upsert_digest db window_id channel_id message_ids content
      published_at).windows = db.windows := by
  unfold db_upsert_digest
  split <;> rfl

theorem publishSend_windows {Store : Type} (o : StageOracles Store)
    (now chat_id window_id : Int) (db db2 : Db Store) (n : Int)
    (h : publishSend o now chat_id window_id db = .ok (db2, n)) :
    db2.windows = db.windows := by
  unfold publishSend at h
  rcases hr : o.render db.store with m | messages <;> rw [hr] at h <;> dsimp only at h
  · cases h
  · by_cases hm : messages.isEmpty
    · rw [if_pos hm] at h
      cases h
    · rw [if_neg hm] at h
      rcases hs : o.send messages with m2 | ids <;> rw [hs] at h <;> dsimp only at h
      · cases h
      · cases h
        exact upsert_digest_windows db window_id chat_id ids _ (some now)

theorem publish_window_windows {Store : Type} (o : StageOracles Store)
    (now chat_id window_id : Int) (db db2 : Db Store) (n : Int)
    (h : publish_window o now chat_id window_id db = .ok (db2, n)) :
    db2.windows = db.windows := by
  unfold publish_window at h
  rcases hd : db_get_digest_by_window db window_id with _ | existing <;> rw [hd] at h <;>
    dsimp only at h
  · exact publishSend_windows o now chat_id window_id db db2 n h
  · by_cases hp : existing.published_at.isSome = true
    · rw [if_pos hp] at h
      cases h
      rfl
    · rw [if_neg hp] at h
      exact publishSend_windows o now chat_id window_id db db2 n h

theorem dailyStages_preserve_windows {Store : Type} (o : StageOracles Store)
    (now chat_id wid : Int) :
    ∀ nf ∈ dailyStages o now chat_id wid, ∀ (db : Db Store) st db2 st2,
      nf.2 db st = Except.ok (db2, st2) → db2.windows = db.windows := by
  intro nf hnf db st db2 st2 h
  simp only [dailyStages, List.mem_cons, List.not_mem_nil, or_false] at hnf
  rcases hnf with rfl | rfl | rfl | rfl | rfl
  · unfold ingestStage at h
    dsimp only at h
    rcases ho : o.ingest db.store with m | ⟨s2, r⟩ <;> rw [ho] at h <;> dsimp only at h
    · cases h
    · cases h; rfl
  · unfold summarizeStage at h
    dsimp only at h
    rcases ho : o.summarize db.store with m | ⟨s2, r⟩ <;> rw [ho] at h <;> dsimp only at h
    · cases h
    · cases h; rfl
  · unfold embedStage at h
    dsimp only at h
    rcases ho : o.embed db.store with m | ⟨s2, r⟩ <;> rw [ho] at h <;> dsimp only at h
    · cases h
    · cases h; rfl
  · unfold dedupStage at h
    dsimp only at h
    rcases ho : o.dedup db.store with m | ⟨s2, r⟩ <;> rw [ho] at h <;> dsimp only at h
    · cases h
    · cases h; rfl
  · unfold publishStage at h
    dsimp only at h
    rcases ho : publish_window o now chat_id wid db with m | ⟨dbp, n⟩ <;> rw [ho] at h <;>
      dsimp only at h
    · cases h
    · cases h
      exact publish_window_windows o now chat_id wid db _ n ho

theorem runStages_window_ids {Store : Type} (wid : Int) :
    ∀ (stages : List (String × Stage Store)),
      (∀ nf ∈ stages, ∀ (db : Db Store) st db2 st2,
        nf.2 db st = Except.ok (db2, st2) → db2.windows = db.windows) →
      ∀ (db : Db Store) (st : PipelineStats),
        (runStages wid stages db st).1.windows.map WindowRow.id
          = db.windows.map WindowRow.id := by
  intro stages
  induction stages with
  | nil => intro _ db st; rfl
  | cons hd rest ih =>
    intro hpres db st
    obtain ⟨statusAfter, f⟩ := hd
    simp only [runStages]
    rcases hf : f db st with m | ⟨db2, st2⟩ <;> dsimp only
    · exact set_window_status_ids db wid "failed"
    · rw [ih (fun nf hnf => hpres nf (List.mem_cons_of_mem _ hnf))
        (db_set_window_status db2 wid statusAfter) st2]
      rw [set_window_status_ids]
      rw [hpres (statusAfter, f) (List.mem_cons_self _ _) db st db2 st2 hf]

theorem runStages_append {Store : Type} (wid : Int)
    (pre rest : List (String × Stage Store)) :
    ∀ (db : Db Store) (st : PipelineStats) (db1 : Db Store) (st1 : PipelineStats),
      runStages wid pre db st = (db1, st1) → st1.failed = false →
      runStages wid (pre ++ rest) db st = runStages wid rest db1 st1 := by
  induction pre with
  | nil =>
    intro db st db1 st1 h hf
    simp only [runStages] at h
    cases h
    rfl
  | cons hd pre ih =>
    intro db st db1 st1 h hf
    obtain ⟨statusAfter, f⟩ := hd
    simp only [runStages, List.cons_append] at h ⊢
    rcases hfd : f db st with m | ⟨db2, st2⟩ <;> rw [hfd] at h <;> dsimp only at h
    · cases h
      simp at hf
    · exact ih _ _ db1 st1 h hf

/-! ## Claim C1 -/

/-- Claim C1: publish idempotency. If a digest row already exists for the
resolved window with a non-null `published_at`, a pipeline run
short-circuits before any stage: it only marks the window `published` and
returns fresh statistics — zero messages sent, no stage statistics, not
failed — leaving the digests table (and so the stored message id list of
the first publish) exactly as it was. The publish stage itself has the same
inner guard: on an already-published digest it returns zero sent messages
and an untouched database. -/
theorem publish_idempotency {Store : Type} (o : StageOracles Store)
    (now chat_id s e : Int) (db db0 : Db Store) (w : WindowRow) (d : DigestRow)
    (hwin : db_get_or_create_window db s e = (db0, w))
    (hdig : db_get_digest_by_window db0 w.id = some d)
    (hpub : d.published_at.isSome = true) :
    run_daily_pipeline o now chat_id s e db
        = (db_set_window_status db0 w.id "published", ({} : PipelineStats)) ∧
    (run_daily_pipeline o now chat_id s e db).2.messages_sent = 0 ∧
    (run_daily_pipeline o now chat_id s e db).2.ingest = none ∧
    (run_daily_pipeline o now chat_id s e db).2.failed = false ∧
    (run_daily_pipeline o now chat_id s e db).1.digests = db.digests ∧
    window_status (run_daily_pipeline o now chat_id s e db).1 w.id = some "published" ∧
    (∀ (db2 : Db Store) (wid : Int) (d2 : DigestRow),
      db_get_digest_by_window db2 wid = some d2 → d2.published_at.isSome = true →
      publish_window o now chat_id wid db2 = Except.ok (db2, 0)) := by
  have hmain : run_daily_pipeline o now chat_id s e db
      = (db_set_window_status db0 w.id "published", ({} : PipelineStats)) := by
    unfold run_daily_pipeline
    rw [hwin]
    dsimp only
    rw [hdig]
    dsimp only
    rw [if_pos hpub]
  refine ⟨hmain, ?_, ?_, ?_, ?_, ?_, ?_⟩
  · rw [hmain]
  · rw [hmain]
  · rw [hmain]
  · rw [hmain]
    show (db_set_window_status db0 w.id "published").digests = db.digests
    rw [set_window_status_digests]
    have hsd := get_or_create_digests db s e
    rw [hwin] at hsd
    exact hsd
  · rw [hmain]
    exact window_status_set db0 w.id "published" (get_or_create_mem db s e db0 w hwin)
  · intro db2 wid d2 hd2 hp2
    unfold publish_window
    rw [hd2]
    dsimp only
    rw [if_pos hp2]

/-- A database holding a window whose digest was already published with
message ids [41, 42]. -/
def pubDb : Db Int :=
  { windows := [⟨1, 1, 2, "published"⟩]
    digests := [⟨1, 7, [41, 42], "content", some 5⟩]
    store := 0 }

/-- Stage oracles for the concrete pipeline witnesses: ingestion fails,
every other stage succeeds. -/
def pipeOracles : StageOracles Int :=
  { ingest := fun _ => Except.error "boom"
    summarize := fun s => Except.ok (s, ⟨0, 0, 0, 0, 0⟩)
    embed := fun s => Except.ok (s, ⟨0, 0, 0, 0⟩)
    dedup := fun s => Except.ok (s, ⟨0, 0, 0, 0⟩)
    render := fun _ => Except.ok ["msg"]
    send := fun _ => Except.ok [5] }

theorem publish_idempotency_witness :
    db_get_digest_by_window pubDb (1 : Int) = some ⟨1, 7, [41, 42], "content", some 5⟩ ∧
    (run_daily_pipeline pipeOracles 9 7 1 2 pubDb).2.messages_sent = 0 ∧
    (run_daily_pipeline pipeOracles 9 7 1 2 pubDb).1.digests = pubDb.digests :=
  ⟨rfl,
    (publish_idempotency pipeOracles 9 7 1 2 pubDb pubDb ⟨1, 1, 2, "published"⟩
      ⟨1, 7, [41, 42], "content", some 5⟩ rfl rfl rfl).2.1,
    (publish_idempotency pipeOracles 9 7 1 2 pubDb pubDb ⟨1, 1, 2, "published"⟩
      ⟨1, 7, [41, 42], "content", some 5⟩ rfl rfl rfl).2.2.2.2.1⟩

/-! ## Claim C7 -/

/-- Claim C7: pipeline failure semantics. If, with no published digest to
short-circuit on, the stages before some stage `f` succeed (reaching state
`db1` with accumulated statistics `st1`) and `f` raises `msg`, then the run
returns with the window set to `failed`, the statistics accumulated so far
carrying `failed = true` and the error message — and the result does not
depend on the stages after `f`, which are never attempted. The run always
returns its statistics, on success as well as on failure. -/
theorem pipeline_failure_semantics {Store : Type} (o : StageOracles Store)
    (now chat_id s e : Int) (db db0 : Db Store) (w : WindowRow)
    (pre suf : List (String × Stage Store)) (name : String) (f : Stage Store)
    (msg : String) (db1 : Db Store) (st1 : PipelineStats)
    (hwin : db_get_or_create_window db s e = (db0, w))
    (hnopub : ∀ d, db_get_digest_by_window db0 w.id = some d → d.published_at = none)
    (hstages : dailyStages o now chat_id w.id = pre ++ (name, f) :: suf)
    (hpre : runStages w.id pre db0 {} = (db1, st1))
    (hok : st1.failed = false)
    (hfail : f db1 st1 = Except.error msg) :
    run_daily_pipeline o now chat_id s e db
        = (db_set_window_status db1 w.id "failed",
          { st1 with failed := true, error := some msg }) ∧
    (run_daily_pipeline o now chat_id s e db).2.failed = true ∧
    (run_daily_pipeline o now chat_id s e db).2.error = some msg ∧
    window_status (run_daily_pipeline o now chat_id s e db).1 w.id = some "failed" := by
  have hrun : runStages w.id (dailyStages o now chat_id w.id) db0 {}
      = (db_set_window_status db1 w.id "failed",
        { st1 with failed := true, error := some msg }) := by
    rw [hstages]
    rw [runStages_append w.id pre ((name, f) :: suf) db0 {} db1 st1 hpre hok]
    simp only [runStages]
    rw [hfail]
  have hmain : run_daily_pipeline o now chat_id s e db
      = (db_set_window_status db1 w.id "failed",
        { st1 with failed := true, error := some msg }) := by
    unfold run_daily_pipeline
    rw [hwin]
    dsimp only
    rcases hd : db_get_digest_by_window db0 w.id with _ | dex
    · exact hrun
    · dsimp only
      rw [if_neg (by rw [hnopub dex hd]; simp)]
      exact hrun
  have hids : db1.windows.map WindowRow.id = db0.windows.map WindowRow.id := by
    have hpres : ∀ nf ∈ pre, ∀ (dbx : Db Store) stx dbx2 stx2,
        nf.2 dbx stx = Except.ok (dbx2, stx2) → dbx2.windows = dbx.windows := by
      intro nf hnf
      apply dailyStages_preserve_windows o now chat_id w.id nf
      rw [hstages]
      exact List.mem_append_left _ hnf
    have := runStages_window_ids w.id pre hpres db0 {}
    rw [hpre] at this
    exact this
  refine ⟨hmain, ?_, ?_, ?_⟩
  · rw [hmain]
  · rw [hmain]
  · rw [hmain]
    apply window_status_set
    rw [hids]
    exact get_or_create_mem db s e db0 w hwin

/-- The empty starting database for the failure witness. -/
def emptyPipeDb : Db Int := { windows := [], digests := [], store := 0 }

/-- The database after the witness run resolves its window. -/
def pipeDb0 : Db Int := { windows := [⟨1, 1, 2, "new"⟩], digests := [], store := 0 }

theorem pipeline_failure_semantics_witness :
    ingestStage pipeOracles pipeDb0 ({} : PipelineStats) = Except.error "boom" ∧
    (run_daily_pipeline pipeOracles 9 7 1 2 emptyPipeDb).2.failed = true ∧
    (run_daily_pipeline pipeOracles 9 7 1 2 emptyPipeDb).2.error = some "boom" :=
  ⟨rfl,
    (pipeline_failure_semantics pipeOracles 9 7 1 2 emptyPipeDb pipeDb0 ⟨1, 1, 2, "new"⟩
      [] [("summarized", summarizeStage pipeOracles), ("embedded", embedStage pipeOracles),
        ("deduped", dedupStage pipeOracles),
        ("published", publishStage pipeOracles 9 7 1)]
      "ingested" (ingestStage pipeOracles) "boom" pipeDb0 {} rfl
      (by intro d hd; simp [db_get_digest_by_window, emptyPipeDb, pipeDb0] at hd)
      rfl rfl rfl rfl).2.1,
    (pipeline_failure_semantics pipeOracles 9 7 1 2 emptyPipeDb pipeDb0 ⟨1, 1, 2, "new"⟩
      [] [("summarized", summarizeStage pipeOracles), ("embedded", embedStage pipeOracles),
        ("deduped", dedupStage pipeOracles),
        ("published", publishStage pipeOracles 9 7 1)]
      "ingested" (ingestStage pipeOracles) "boom" pipeDb0 {} rfl
      (by intro d hd; simp [db_get_digest_by_window, emptyPipeDb, pipeDb0] at hd)
      rfl rfl rfl rfl).2.2.1⟩

end AIDigest
